import Mathlib

/-!
# Booking calendar and shop widgets

A shallow embedding of `src/js/calendar.js`, `src/website/js/calendar.js` and
`src/website/js/shop.js`, and the properties of the month grid, the selection
state machine, the booking store and the cart that the specification states.

The scripts lean on the `Date` built-in of the language.  Its time arithmetic is
embedded first, after the ECMAScript definitions (Day, DayFromYear, YearFromTime,
MonthFromTime, DateFromTime, WeekDay, MakeDay, MakeDate, LocalTime, UTC).

Conventions of the embedding:

* a `Date` object is its time value, an integer number of milliseconds since
  1970-01-01T00:00:00Z; the arithmetic is that of valid dates, those whose time
  value `TimeClip` keeps, and a statement about every state of the calendar
  assumes that the `Date` objects built are valid (`datesValid`);
* the viewer's timezone is a fixed offset `tz`, the number of minutes that
  `getTimezoneOffset()` reports (positive west of Greenwich, negative east);
* a DOM element is the record of the properties the scripts read and write, and
  every element that the scripts look up is present on the page;
* the text under a key of `localStorage` is named by what `JSON.parse` makes of
  it, and a list of records written with `JSON.stringify` is read back unchanged;
* a quantity is an integer held as a Number, and sums are rounded as the sum of
  two Numbers is (`numberAdd`).
-/

set_option autoImplicit false

namespace JS

/-! ## Time arithmetic of `Date` -/

def msPerDay : Int := 86400000
def msPerHour : Int := 3600000
def msPerMinute : Int := 60000
def msPerSecond : Int := 1000

/-- Day number of a time value: floor(t / msPerDay). -/
def Day (t : Int) : Int := t / msPerDay

/-- Milliseconds since the start of the day: t modulo msPerDay. -/
def TimeWithinDay (t : Int) : Int := t % msPerDay

/-- Number of days of year `y` in the proleptic Gregorian calendar. -/
def DaysInYear (y : Int) : Int :=
  if y % 4 ≠ 0 then 365
  else if y % 100 ≠ 0 then 366
  else if y % 400 ≠ 0 then 365
  else 366

/-- Day number of the first day of year `y`. -/
def DayFromYear (y : Int) : Int :=
  365 * (y - 1970) + (y - 1969) / 4 - (y - 1901) / 100 + (y - 1601) / 400

/-- Time value of the start of year `y`. -/
def TimeFromYear (y : Int) : Int := msPerDay * DayFromYear y

/-- The largest year whose first day is not after day number `d`: estimated from
the mean length of a year (146097 days in 400 years), then adjusted by one. -/
def yearFromDay (d : Int) : Int :=
  let e := 1970 + (d * 400) / 146097
  if DayFromYear (e + 1) ≤ d then e + 1
  else if DayFromYear e ≤ d then e
  else e - 1

/-- YearFromTime(t): the largest integer y such that TimeFromYear(y) ≤ t. -/
def YearFromTime (t : Int) : Int := yearFromDay (Day t)

/-- InLeapYear(t): 1 in a leap year, 0 otherwise. -/
def InLeapYear (t : Int) : Int :=
  if DaysInYear (YearFromTime t) = 366 then 1 else 0


/-- DayWithinYear(t): zero-based day of the year. -/
def DayWithinYear (t : Int) : Int := Day t - DayFromYear (YearFromTime t)

/-- The month table of MonthFromTime: the zero-based month of the day `d` within
a year; `l` is 1 in a leap year and 0 otherwise. -/
def monthOfDay (d l : Int) : Int :=
  if d < 31 then 0
  else if d < 59 + l then 1
  else if d < 90 + l then 2
  else if d < 120 + l then 3
  else if d < 151 + l then 4
  else if d < 181 + l then 5
  else if d < 212 + l then 6
  else if d < 243 + l then 7
  else if d < 273 + l then 8
  else if d < 304 + l then 9
  else if d < 334 + l then 10
  else 11

/-- The date table of DateFromTime: the day of the month of the day `d` within
a year whose month is `m`. -/
def dateOfDay (m d l : Int) : Int :=
  if m = 0 then d + 1
  else if m = 1 then d - 30
  else if m = 2 then d - 58 - l
  else if m = 3 then d - 89 - l
  else if m = 4 then d - 119 - l
  else if m = 5 then d - 150 - l
  else if m = 6 then d - 180 - l
  else if m = 7 then d - 211 - l
  else if m = 8 then d - 242 - l
  else if m = 9 then d - 272 - l
  else if m = 10 then d - 303 - l
  else d - 333 - l

/-- MonthFromTime(t): zero-based month, from the day within the year. -/
def MonthFromTime (t : Int) : Int := monthOfDay (DayWithinYear t) (InLeapYear t)

/-- DateFromTime(t): day of the month, 1-based. -/
def DateFromTime (t : Int) : Int :=
  dateOfDay (MonthFromTime t) (DayWithinYear t) (InLeapYear t)

/-- WeekDay(t): 0 = Sunday .. 6 = Saturday. -/
def WeekDay (t : Int) : Int := (Day t + 4) % 7

def HourFromTime (t : Int) : Int := (t / msPerHour) % 24
def MinFromTime (t : Int) : Int := (t / msPerMinute) % 60
def SecFromTime (t : Int) : Int := (t / msPerSecond) % 60
def msFromTime (t : Int) : Int := t % msPerSecond

/-- MakeTime(hour, min, sec, ms). -/
def MakeTime (hour min sec ms : Int) : Int :=
  hour * msPerHour + min * msPerMinute + sec * msPerSecond + ms

/-- Days from the start of a year to the start of its zero-based month `mn`;
`l` is 1 in a leap year and 0 otherwise. -/
def daysBeforeMonth (mn l : Int) : Int :=
  if mn = 0 then 0
  else if mn = 1 then 31
  else if mn = 2 then 59 + l
  else if mn = 3 then 90 + l
  else if mn = 4 then 120 + l
  else if mn = 5 then 151 + l
  else if mn = 6 then 181 + l
  else if mn = 7 then 212 + l
  else if mn = 8 then 243 + l
  else if mn = 9 then 273 + l
  else if mn = 10 then 304 + l
  else 334 + l

/-- The leap flag of year `y`: 1 when it has 366 days, 0 otherwise. -/
def leapFlag (y : Int) : Int := if DaysInYear y = 366 then 1 else 0

/-- MakeDay(year, month, date): the day number of the first day of month
`month mod 12` of year `year + floor(month / 12)`, plus `date - 1`. -/
def MakeDay (year month date : Int) : Int :=
  let ym := year + month / 12
  let mn := month % 12
  DayFromYear ym + daysBeforeMonth mn (leapFlag ym) + date - 1

/-- MakeDate(day, time). -/
def MakeDate (day time : Int) : Int := day * msPerDay + time

/-- LocalTime(t) for a viewer whose offset is `tz` minutes. -/
def LocalTime (tz t : Int) : Int := t - tz * msPerMinute

/-- UTC(t): the time value of the local time `t`. -/
def UTC (tz t : Int) : Int := t + tz * msPerMinute

/-- Constructor `new Date(year, month, date)`: local midnight of that calendar
day; a year from 0 to 99 stands for 1900 + year.  The value is the time value
before TimeClip: the `Date` is valid when `TimeClip` keeps it. -/
def newDate (tz year month date : Int) : Int :=
  let yr := if 0 ≤ year ∧ year ≤ 99 then 1900 + year else year
  UTC tz (MakeDate (MakeDay yr month date) (MakeTime 0 0 0 0))

/-- Constructor `new Date(value)` from a time value. -/
def newDateOfValue (value : Int) : Int := value

/-- TimeClip(t): a time value more than 8.64e15 ms away from the epoch is not
kept, and the `Date` built from it is an Invalid Date. -/
def TimeClip (t : Int) : Option Int :=
  if -8640000000000000 ≤ t ∧ t ≤ 8640000000000000 then some t else none

/-- The time value is that of a valid date. -/
def validTime (t : Int) : Bool := (TimeClip t).isSome

def getTime (t : Int) : Int := t
def getFullYear (tz t : Int) : Int := YearFromTime (LocalTime tz t)
def getMonth (tz t : Int) : Int := MonthFromTime (LocalTime tz t)
def getDate (tz t : Int) : Int := DateFromTime (LocalTime tz t)
def getDay (tz t : Int) : Int := WeekDay (LocalTime tz t)

/-- Method getTimezoneOffset(): (t - LocalTime(t)) / msPerMinute. -/
def getTimezoneOffset (tz t : Int) : Int := (t - LocalTime tz t) / msPerMinute

/-- Method setMonth(month): the local date and time with the month replaced.  The
value is the time value before TimeClip. -/
def setMonth (tz t month : Int) : Int :=
  let lt := LocalTime tz t
  UTC tz (MakeDate (MakeDay (YearFromTime lt) month (DateFromTime lt)) (TimeWithinDay lt))

/-! ## Text of a date -/

/-- Decimal digit of the units of `n`. -/
def digitChar (n : Nat) : Char :=
  match n % 10 with
  | 0 => '0' | 1 => '1' | 2 => '2' | 3 => '3' | 4 => '4'
  | 5 => '5' | 6 => '6' | 7 => '7' | 8 => '8' | _ => '9'

def pad2 (n : Nat) : List Char := [digitChar (n / 10), digitChar n]
def pad3 (n : Nat) : List Char := [digitChar (n / 100), digitChar (n / 10), digitChar n]
def pad4 (n : Nat) : List Char :=
  [digitChar (n / 1000), digitChar (n / 100), digitChar (n / 10), digitChar n]
def pad6 (n : Nat) : List Char :=
  [digitChar (n / 100000), digitChar (n / 10000), digitChar (n / 1000),
   digitChar (n / 100), digitChar (n / 10), digitChar n]

/-- Year of the ISO format: four digits from 0 to 9999, otherwise a sign and
six digits. -/
def isoYear (y : Int) : List Char :=
  if 0 ≤ y ∧ y ≤ 9999 then pad4 y.toNat
  else (if y < 0 then '-' else '+') :: pad6 y.natAbs

/-- Method toISOString(): `YYYY-MM-DDTHH:mm:ss.sssZ`, in UTC. -/
def toISOString (t : Int) : String :=
  String.mk (isoYear (YearFromTime t) ++ '-' :: pad2 (MonthFromTime t + 1).toNat
    ++ '-' :: pad2 (DateFromTime t).toNat
    ++ 'T' :: pad2 (HourFromTime t).toNat ++ ':' :: pad2 (MinFromTime t).toNat
    ++ ':' :: pad2 (SecFromTime t).toNat ++ '.' :: pad3 (msFromTime t).toNat ++ ['Z'])

/-- The expression `s.split('T')[0]`: the text before the first `T`. -/
def splitT0 (s : String) : String := String.mk (s.data.takeWhile (fun c => c != 'T'))

/-- Number of days of the zero-based month `m` of year `y`. -/
def DaysInMonth (y m : Int) : Int :=
  if m = 1 then (if DaysInYear y = 366 then 29 else 28)
  else if m = 3 ∨ m = 5 ∨ m = 8 ∨ m = 10 then 30
  else 31

/-- The zero-padded text `YYYY-MM-DD` of a calendar date (month from 1). -/
def ymdText (year month1 day : Int) : String :=
  String.mk (pad4 year.toNat ++ '-' :: pad2 month1.toNat ++ '-' :: pad2 day.toNat)

end JS

/-! ## Strings, storage and the DOM -/

namespace JS

/-- WhiteSpace and LineTerminator code points, the characters `trim` strips. -/
def isWhiteSpace (c : Char) : Bool :=
  let n := c.toNat
  n = 9 || n = 10 || n = 11 || n = 12 || n = 13 || n = 32 || n = 160 || n = 5760
    || (8192 ≤ n && n ≤ 8202) || n = 8232 || n = 8233 || n = 8239 || n = 8287
    || n = 12288 || n = 65279

/-- Method `String.prototype.trim`. -/
def trim (s : String) : String :=
  String.mk ((s.data.dropWhile isWhiteSpace).reverse.dropWhile isWhiteSpace).reverse

/-- The unit in the last place of the Number nearest to `a`: the least power of
two `u`, from `u` on, with `a / u` below 2^53. -/
def ulpFrom : Nat → Nat → Nat → Nat
  | 0, _, u => u
  | fuel + 1, a, u => if a / u < 9007199254740992 then u else ulpFrom fuel a (2 * u)

/-- The Number (IEEE 754 binary64) nearest to an integer, ties to the even
significand: the integer itself below 2^53 in magnitude, 53 significant bits
otherwise.  Magnitudes from 2^1024 on, which a Number holds as Infinity, are
outside the embedding. -/
def toDouble (n : Int) : Int :=
  let a := n.natAbs
  if a < 9007199254740992 then n
  else
    let ulp := ulpFrom a a 1
    let q := a / ulp
    let r := a % ulp
    let q1 := if 2 * r < ulp then q else if ulp < 2 * r then q + 1
      else if q % 2 = 0 then q else q + 1
    if n < 0 then -((q1 * ulp : Nat) : Int) else ((q1 * ulp : Nat) : Int)

/-- The operator `+` on two Numbers that hold integers. -/
def numberAdd (a b : Int) : Int := toDouble (a + b)

/-- An exception that a handler lets escape. -/
inductive JsError where
  | typeError (message : String)
deriving DecidableEq, Repr

/-- The text kept under one key of `localStorage`, named by what `JSON.parse`
makes of it.  Writing `JSON.stringify(xs)` for a list of records leaves `list xs`.
Arrays whose elements are not records of the expected shape, and numbers that are
not integers, are outside the embedding. -/
inductive Stored (α : Type) where
  | absent
  | notJson (text : String)
  | null
  | bool (b : Bool)
  | number (n : Int)
  | string (s : String)
  | object (text : String)
  | list (items : List α)
deriving DecidableEq, Repr

/-- The value of `JSON.parse(localStorage.getItem(key)) || []` inside
`try .. catch (err) (.. = [])`: an array, or a truthy value that is not one. -/
inductive Loaded (α : Type) where
  | array (items : List α)
  | notArray
deriving DecidableEq, Repr

/-- Reading a key: a missing item parses as `null`, text that is not JSON throws
and is caught, a falsy value gives way to `[]`, any other value is kept. -/
def load {α : Type} : Stored α → Loaded α
  | .absent => .array []
  | .notJson _ => .array []
  | .null => .array []
  | .bool b => if b then .notArray else .array []
  | .number n => if n = 0 then .array [] else .notArray
  | .string s => if s = "" then .array [] else .notArray
  | .object _ => .notArray
  | .list items => .array items

end JS

namespace Dom

/-- Method `classList.add(token)`. -/
def classAdd (classList : List String) (token : String) : List String :=
  if token ∈ classList then classList else classList ++ [token]

/-- Method `classList.remove(token)`. -/
def classRemove (classList : List String) (token : String) : List String :=
  classList.filter (fun c => c != token)

/-- A `td` of the calendar: its text (the day number, if any), its class list, and
the date string that its click listener passes to `selectDate`, if it has one. -/
structure Cell where
  textContent : Option Nat
  classList : List String
  onClick : Option String
deriving DecidableEq, Repr

/-- The service drop-down: the values of its options and the selected index
(-1 when nothing is selected). -/
structure SelectEl where
  options : List String
  selectedIndex : Int
deriving DecidableEq, Repr

/-- Property `value` of a drop-down. -/
def SelectEl.value (e : SelectEl) : String :=
  if 0 ≤ e.selectedIndex then e.options.getD e.selectedIndex.toNat "" else ""

/-- Assignment `selectedIndex = 0`. -/
def SelectEl.selectFirst (e : SelectEl) : SelectEl :=
  { e with selectedIndex := if e.options = [] then -1 else 0 }

def modifyNth {α : Type} (f : α → α) : Nat → List α → List α
  | _, [] => []
  | 0, a :: l => f a :: l
  | n + 1, a :: l => a :: modifyNth f n l

/-- The cell in row `i`, column `j` of a table body. -/
def cellAt (tbody : List (List Cell)) (i j : Nat) : Option Cell :=
  match tbody[i]? with
  | some row => row[j]?
  | none => none

/-- Change the cell in row `i`, column `j`. -/
def modifyCell (f : Cell → Cell) (i j : Nat) (tbody : List (List Cell)) : List (List Cell) :=
  modifyNth (modifyNth f j) i tbody

def Cell.isSelected (c : Cell) : Bool := decide ("selected" ∈ c.classList)

def Cell.addClass (token : String) (c : Cell) : Cell :=
  { c with classList := classAdd c.classList token }

def Cell.removeClass (token : String) (c : Cell) : Cell :=
  { c with classList := classRemove c.classList token }

/-- Index of the first selected cell of a row. -/
def firstSelectedInRow : List Cell → Option Nat
  | [] => none
  | c :: cs => if c.isSelected then some 0 else (firstSelectedInRow cs).map (fun j => j + 1)

/-- The call `calendarEl.querySelector('.selected')`: the position of the first
cell in document order whose class list holds `selected`. -/
def querySelectorSelected : List (List Cell) → Option (Nat × Nat)
  | [] => none
  | row :: rows =>
    match firstSelectedInRow row with
    | some j => some (0, j)
    | none => (querySelectorSelected rows).map (fun p => (p.1 + 1, p.2))

/-- The statements `const c = calendarEl.querySelector('.selected');
if (c) c.classList.remove('selected')`. -/
def deselect (tbody : List (List Cell)) : List (List Cell) :=
  match querySelectorSelected tbody with
  | some (i, j) => modifyCell (Cell.removeClass "selected") i j tbody
  | none => tbody

/-- Number of cells of a table body whose class list holds `selected`. -/
def selectedCount (tbody : List (List Cell)) : Nat :=
  (tbody.map (fun row => row.countP Cell.isSelected)).sum

end Dom

/-! ## The calendar widget -/

namespace CalendarWidget

open JS Dom

/-- A stored booking record. -/
structure Booking where
  date : String
  service : String
  name : String
  email : String
  createdAt : String
deriving DecidableEq, Repr

/-- The state of the calendar page: the variables of the script, the parts of the
page it reads and writes, the `bookings` key of `localStorage`, and the messages
shown by `alert`, oldest first.  All elements the script looks up are present. -/
structure Widget where
  availability : List String
  currentDate : Int
  selectedDate : Option String
  monthYearLabel : String
  thead : List String
  tbody : List (List Cell)
  bookingForm : List String
  bookingDateDisplay : String
  bookingDateInput : String
  bookingName : String
  bookingEmail : String
  serviceSelect : SelectEl
  bookings : Stored Booking
  alerts : List String
deriving DecidableEq, Repr

def monthNames : List String :=
  ["Januar", "Februar", "März", "April", "Mai", "Juni",
   "Juli", "August", "September", "Oktober", "November", "Dezember"]

def weekdayNames : List String := ["So", "Mo", "Di", "Mi", "Do", "Fr", "Sa"]

/-- A cell without a day: `td` with class `unavailable`. -/
def blankCell : Cell := { textContent := none, classList := ["unavailable"], onClick := none }

/-- The cell of a day: class `available` and a click listener when the date string
is in the availability list, class `unavailable` otherwise. -/
def dayCell (availability : List String) (dateStr : String) (day : Nat) : Cell :=
  if dateStr ∈ availability then
    { textContent := some day, classList := ["available"], onClick := some dateStr }
  else
    { textContent := some day, classList := ["unavailable"], onClick := none }

/-- The rows built so far and the row being filled. -/
structure Rows where
  tbody : List (List Cell)
  row : List Cell
deriving DecidableEq, Repr

/-- One turn of the loop over the days: append the cell, close the row at the
end of a week. -/
def dayStep (startDayOfWeek : Nat) (cellOf : Nat → Cell) (st : Rows) (day : Nat) : Rows :=
  let row := st.row ++ [cellOf day]
  if (startDayOfWeek + day) % 7 = 0 then { tbody := st.tbody ++ [row], row := [] }
  else { tbody := st.tbody, row := row }

/-- The trailing cells: fill and append the last row unless it is empty. -/
def finishRows (st : Rows) : List (List Cell) :=
  let remainingCells : Int := 7 - (st.row.length : Int)
  if remainingCells < 7 then
    st.tbody ++ [st.row ++ List.replicate remainingCells.toNat blankCell]
  else st.tbody

/-- The table body of `renderCalendar`: leading blank cells, the day cells of
days 1 to `totalDays`, trailing blank cells. -/
def buildBody (startDayOfWeek totalDays : Nat) (cellOf : Nat → Cell) : List (List Cell) :=
  let start : Rows := { tbody := [], row := List.replicate startDayOfWeek blankCell }
  finishRows ((List.range' 1 totalDays).foldl (dayStep startDayOfWeek cellOf) start)

/-- The value of `firstDay.getDay()` in `renderCalendar`, for a valid `firstDay`. -/
def startDayOfWeek (tz date : Int) : Int :=
  getDay tz (newDate tz (getFullYear tz date) (getMonth tz date) 1)

/-- The value of `lastDay.getDate()` in `renderCalendar`, for a valid `lastDay`. -/
def totalDays (tz date : Int) : Int :=
  getDate tz (newDate tz (getFullYear tz date) (getMonth tz date + 1) 0)

/-- The label `monthNames[month] year`. -/
def monthYearText (tz date : Int) : String :=
  monthNames.getD (getMonth tz date).toNat "" ++ " " ++ toString (getFullYear tz date)

/-- Function `renderCalendar(date)`, for the date string that a variant computes
for each day. -/
def renderWith (dateStrOf : Int → Int → Int → Int → String) (tz date : Int) (w : Widget) :
    Widget :=
  let year := getFullYear tz date
  let month := getMonth tz date
  { w with
    monthYearLabel := monthYearText tz date
    thead := weekdayNames
    tbody := buildBody (startDayOfWeek tz date).toNat (totalDays tz date).toNat
      (fun day => dayCell w.availability (dateStrOf tz year month day) day) }

/-- Function `selectDate(dateStr, cell)`, the same in both scripts; the cell is
given by its row and column in the table body. -/
def selectDate (dateStr : String) (i j : Nat) (w : Widget) : Widget :=
  { w with
    tbody := modifyCell (Cell.addClass "selected") i j (deselect w.tbody)
    selectedDate := some dateStr
    bookingDateDisplay := dateStr
    bookingDateInput := dateStr
    bookingForm := classAdd w.bookingForm "visible" }

/-- A click on the cell in row `i`, column `j`: runs the listener if the cell
has one. -/
def clickCell (i j : Nat) (w : Widget) : Widget :=
  match cellAt w.tbody i j with
  | some c =>
    match c.onClick with
    | some dateStr => selectDate dateStr i j w
    | none => w
  | none => w

/-- The click listener of the previous-month button. -/
def prevClickWith (dateStrOf : Int → Int → Int → Int → String) (tz : Int) (w : Widget) :
    Widget :=
  let currentDate := setMonth tz w.currentDate (getMonth tz w.currentDate - 1)
  let w1 := renderWith dateStrOf tz currentDate { w with currentDate := currentDate }
  { w1 with bookingForm := classRemove w1.bookingForm "visible" }

/-- The click listener of the next-month button. -/
def nextClickWith (dateStrOf : Int → Int → Int → Int → String) (tz : Int) (w : Widget) :
    Widget :=
  let currentDate := setMonth tz w.currentDate (getMonth tz w.currentDate + 1)
  let w1 := renderWith dateStrOf tz currentDate { w with currentDate := currentDate }
  { w1 with bookingForm := classRemove w1.bookingForm "visible" }

/-- The test `!selectedDate`: true for null and for the empty string. -/
def noDate (selectedDate : Option String) : Bool :=
  match selectedDate with
  | none => true
  | some d => d = ""

/-- The test of the submit listeners:
`!selectedDate || !name || !email || !service`. -/
def invalid (w : Widget) : Bool :=
  noDate w.selectedDate || trim w.bookingName = "" || trim w.bookingEmail = ""
    || w.serviceSelect.value = ""

def validationMessage : String :=
  "Bitte füllen Sie alle Felder aus und wählen Sie einen Termin."

def confirmationMessage (name date service : String) : String :=
  "Vielen Dank, " ++ name ++ "! Ihre Buchungsanfrage für den " ++ date ++ " (" ++ service
    ++ ") wurde gesendet. Wir werden uns in Kürze bei Ihnen melden."

/-- The end of both submit listeners: empty the fields, hide the form, take
`selected` off the selected cell. -/
def resetForm (w : Widget) : Widget :=
  { w with
    bookingName := ""
    bookingEmail := ""
    serviceSelect := w.serviceSelect.selectFirst
    bookingForm := classRemove w.bookingForm "visible"
    tbody := deselect w.tbody }

/-- What the user and the page do to the widget. -/
inductive Event where
  | fetched (availableDates : Option (List String))
  | click (i j : Nat)
  | prev
  | next
  | submit (now : Int)
  | typeName (text : String)
  | typeEmail (text : String)
  | chooseService (index : Nat)
deriving DecidableEq, Repr

/-- The user picks the option with the given index, if there is one. -/
def chooseService (index : Nat) (w : Widget) : Widget :=
  if index < w.serviceSelect.options.length then
    { w with serviceSelect := { w.serviceSelect with selectedIndex := index } }
  else w

/-- The page right after `DOMContentLoaded`, before the availability data has
arrived: nothing selected, an empty table. -/
def loaded (now : Int) (form : List String) (name email : String) (service : SelectEl)
    (bookings : Stored Booking) : Widget :=
  { availability := []
    currentDate := now
    selectedDate := none
    monthYearLabel := ""
    thead := []
    tbody := []
    bookingForm := form
    bookingDateDisplay := ""
    bookingDateInput := ""
    bookingName := name
    bookingEmail := email
    serviceSelect := service
    bookings := bookings
    alerts := [] }

/-- The layout that the specification gives the table body of a month whose
first day falls on weekday `s` and which has `n` days: rows of seven cells that,
read row by row, are `s` blank cells, the cells of days 1 to `n`, and
`k = (7 - (s + n) mod 7) mod 7` blank cells; `n` cells carry a day number, day
`d` sits in row `(s + d - 1) / 7`, column `(s + d - 1) mod 7`, and no row is
blank throughout. -/
def MonthGrid (s n : Nat) (cellOf : Nat → Cell) (tbody : List (List Cell)) : Prop :=
  (∀ row ∈ tbody, row.length = 7) ∧
  tbody.flatten = List.replicate s blankCell ++ (List.range' 1 n).map cellOf
    ++ List.replicate ((7 - (s + n) % 7) % 7) blankCell ∧
  (∀ d, (cellOf d).textContent = some d) ∧
  tbody.flatten.length = s + n + (7 - (s + n) % 7) % 7 ∧
  tbody.flatten.length % 7 = 0 ∧
  tbody.flatten.countP (fun c => c.textContent.isSome) = n ∧
  (∀ d, 1 ≤ d → d ≤ n →
    cellAt tbody ((s + d - 1) / 7) ((s + d - 1) % 7) = some (cellOf d)) ∧
  (∀ row ∈ tbody, ∃ c ∈ row, c.textContent ≠ none)

/-- Weekday of the first day of the zero-based month `month` of year `year`
(0 = Sunday .. 6 = Saturday). -/
def weekdayOfFirst (year month : Int) : Int :=
  WeekDay (MakeDate (MakeDay year month 1) 0)

end CalendarWidget

/-! ### `src/js/calendar.js` -/

namespace Calendar

open JS Dom CalendarWidget

/-- The date string of a day in `renderCalendar`: the ISO text of the time value
shifted by the timezone offset, up to the `T`. -/
def dateStr (tz year month day : Int) : String :=
  let cellDate := newDate tz year month day
  let localIso :=
    toISOString (newDateOfValue (getTime cellDate - getTimezoneOffset tz cellDate * 60000))
  splitT0 localIso

def renderCalendar (tz date : Int) (w : Widget) : Widget := renderWith dateStr tz date w

def prevClick (tz : Int) (w : Widget) : Widget := prevClickWith dateStr tz w

def nextClick (tz : Int) (w : Widget) : Widget := nextClickWith dateStr tz w

/-- The dates used when `availability.json` cannot be loaded. -/
def fallbackDates : List String :=
  ["2025-09-01", "2025-09-02", "2025-09-03", "2025-09-05", "2025-09-07", "2025-09-10",
   "2025-09-15", "2025-09-20"]

/-- The handlers of the `fetch` promise: `data.availableDates || []` on success,
the fallback list on failure; then the calendar is rendered. -/
def fetched (tz : Int) (availableDates : Option (List String)) (w : Widget) : Widget :=
  match availableDates with
  | some dates => renderCalendar tz w.currentDate { w with availability := dates }
  | none => renderCalendar tz w.currentDate { w with availability := fallbackDates }

/-- The click listener of the submit button; `now` is the time of the click. -/
def submitClick (now : Int) (w : Widget) : Except JsError Widget :=
  let name := trim w.bookingName
  let email := trim w.bookingEmail
  let service := w.serviceSelect.value
  if invalid w then
    .ok { w with alerts := w.alerts ++ [validationMessage] }
  else
    match load w.bookings with
    | .notArray => .error (.typeError "bookings.push is not a function")
    | .array bookings =>
      let date := w.selectedDate.getD ""
      let record : Booking :=
        { date := date, service := service, name := name, email := email,
          createdAt := toISOString now }
      let w1 := { w with bookings := Stored.list (bookings ++ [record]) }
      let w2 := { w1 with alerts := w1.alerts ++ [confirmationMessage name date service] }
      .ok { resetForm w2 with selectedDate := none }

/-- One event; an exception that escapes a listener leaves the page as it was. -/
def step (tz : Int) (w : Widget) : Event → Widget
  | .fetched dates => fetched tz dates w
  | .click i j => clickCell i j w
  | .prev => prevClick tz w
  | .next => nextClick tz w
  | .submit now =>
    match submitClick now w with
    | .ok w1 => w1
    | .error _ => w
  | .typeName text => { w with bookingName := text }
  | .typeEmail text => { w with bookingEmail := text }
  | .chooseService index => chooseService index w

end Calendar

/-! ### `src/website/js/calendar.js` -/

namespace WebsiteCalendar

open JS Dom CalendarWidget

/-- The date string of a day in `renderCalendar`: the ISO text of the cell date,
up to the `T`. -/
def dateStr (tz year month day : Int) : String :=
  let cellDate := newDate tz year month day
  splitT0 (toISOString cellDate)

def renderCalendar (tz date : Int) (w : Widget) : Widget := renderWith dateStr tz date w

def prevClick (tz : Int) (w : Widget) : Widget := prevClickWith dateStr tz w

def nextClick (tz : Int) (w : Widget) : Widget := nextClickWith dateStr tz w

/-- The handlers of the `fetch` promise: `data.availableDates || []` on success,
the list left as it is on failure; then the calendar is rendered. -/
def fetched (tz : Int) (availableDates : Option (List String)) (w : Widget) : Widget :=
  match availableDates with
  | some dates => renderCalendar tz w.currentDate { w with availability := dates }
  | none => renderCalendar tz w.currentDate w

/-- The click listener of the submit button: feedback only, nothing is stored
and `selectedDate` is not assigned. -/
def submitClick (w : Widget) : Widget :=
  let name := trim w.bookingName
  let service := w.serviceSelect.value
  if invalid w then
    { w with alerts := w.alerts ++ [validationMessage] }
  else
    let date := w.selectedDate.getD ""
    resetForm { w with alerts := w.alerts ++ [confirmationMessage name date service] }

def step (tz : Int) (w : Widget) : Event → Widget
  | .fetched dates => fetched tz dates w
  | .click i j => clickCell i j w
  | .prev => prevClick tz w
  | .next => nextClick tz w
  | .submit _ => submitClick w
  | .typeName text => { w with bookingName := text }
  | .typeEmail text => { w with bookingEmail := text }
  | .chooseService index => chooseService index w

end WebsiteCalendar

/-! ## The shop: `src/website/js/shop.js` -/

namespace Shop

open JS

/-- A line of the stored cart; the quantity is a Number that holds an integer. -/
structure CartLine where
  id : String
  quantity : Int
deriving DecidableEq, Repr

/-- A product of the catalog; the type of prices is left open. -/
structure Product (Price : Type) where
  id : String
  name : String
  category : String
  description : String
  price : Price
  image : String

/-- A rendered product card: its class, its markup, and the product id that the
click listener of its button passes to `addToCart`. -/
structure Card where
  className : String
  innerHTML : String
  buttonClick : String
deriving DecidableEq, Repr

/-- The state of the shop page: the variables of the script, the value of the
category drop-down, the cards of the product list, the number shown as the cart
count, the `cart` key of `localStorage`, and the messages shown by `alert`. -/
structure State (Price : Type) where
  products : List (Product Price)
  categories : List String
  categoryValue : String
  productList : List Card
  cartCount : Int
  cart : Stored CartLine
  alerts : List String

/-- The markup of a card; `toFixed2` stands for `price.toFixed(2)`. -/
def cardOf {Price : Type} (toFixed2 : Price → String) (product : Product Price) : Card :=
  { className := "product-card"
    innerHTML :=
      "\n        <img src=\"" ++ product.image ++ "\" alt=\"" ++ product.name ++ "\">"
      ++ "\n        <h3>" ++ product.name ++ "</h3>"
      ++ "\n        <p>" ++ product.description ++ "</p>"
      ++ "\n        <p class=\"price\">" ++ toFixed2 product.price ++ "\u00a0€</p>"
      ++ "\n        <button data-id=\"" ++ product.id ++ "\">In den Warenkorb</button>\n      "
    buttonClick := product.id }

/-- The products that `renderProducts` shows for a value of the drop-down. -/
def filtered {Price : Type} (products : List (Product Price)) (selectedCategory : String) :
    List (Product Price) :=
  if selectedCategory ≠ "" then products.filter (fun p => p.category = selectedCategory)
  else products

/-- Function `renderProducts()`. -/
def renderProducts {Price : Type} (toFixed2 : Price → String) (s : State Price) :
    State Price :=
  { s with productList := (filtered s.products s.categoryValue).map (cardOf toFixed2) }

/-- The listener of the `change` event of the drop-down, after the user has
picked the option with value `category`. -/
def changeCategory {Price : Type} (toFixed2 : Price → String) (category : String)
    (s : State Price) : State Price :=
  renderProducts toFixed2 { s with categoryValue := category }

/-- Function `updateCartCount()`. -/
def updateCartCount {Price : Type} (s : State Price) : Except JsError (State Price) :=
  match load s.cart with
  | .notArray => .error (.typeError "cart.reduce is not a function")
  | .array cart =>
    let count := cart.foldl (fun sum item => numberAdd sum item.quantity) 0
    .ok { s with cartCount := count }

/-- The statement `existing.quantity += 1` on the first line with the id. -/
def incrementFirst (productId : String) : List CartLine → List CartLine
  | [] => []
  | item :: rest =>
    if item.id = productId then { item with quantity := numberAdd item.quantity 1 } :: rest
    else item :: incrementFirst productId rest

/-- The cart of `addToCart` after `const existing = cart.find(..)` and the
`if (existing) .. else cart.push(..)` that follows. -/
def addLine (productId : String) (cart : List CartLine) : List CartLine :=
  match cart.find? (fun item => item.id = productId) with
  | some _ => incrementFirst productId cart
  | none => cart ++ [{ id := productId, quantity := 1 }]

/-- Function `addToCart(productId)`. -/
def addToCart {Price : Type} (productId : String) (s : State Price) :
    Except JsError (State Price) :=
  match load s.cart with
  | .notArray => .error (.typeError "cart.find is not a function")
  | .array cart =>
    match updateCartCount { s with cart := Stored.list (addLine productId cart) } with
    | .error e => .error e
    | .ok s1 => .ok { s1 with alerts := s1.alerts ++ ["Artikel wurde dem Warenkorb hinzugefügt."] }

end Shop

/-! ### The catalog data and the category drop-down -/

namespace Shop

open JS

/-- An `option` element of the category drop-down. -/
structure OptionEl where
  value : String
  textContent : String
deriving DecidableEq, Repr

/-- The options of the category drop-down; they are kept beside the state of the
page. -/
structure Page (Price : Type) where
  state : State Price
  categoryOptions : List OptionEl

/-- The expression `[...new Set(xs)]`: the distinct values, each at its first
occurrence. -/
def distinct (xs : List String) : List String :=
  xs.foldl (fun seen x => if x ∈ seen then seen else seen ++ [x]) []

/-- Function `populateCategoryFilter()`: the drop-down is emptied, then holds the
option for all categories and one option per entry of `categories`; the first
option is the selected one, so the value of the drop-down is the empty string. -/
def populateCategoryFilter {Price : Type} (p : Page Price) : Page Price :=
  { state := { p.state with categoryValue := "" }
    categoryOptions :=
      { value := "", textContent := "Alle Kategorien" }
        :: p.state.categories.map (fun cat => { value := cat, textContent := cat }) }

/-- The handler of a successful load of `data/products.json`:
`products = data.products || []`, `categories = data.categories || []`, then
`populateCategoryFilter()` and `renderProducts()`.  A field that the data does
not carry is `none`. -/
def fetchSucceeded {Price : Type} (toFixed2 : Price → String)
    (dataProducts : Option (List (Product Price))) (dataCategories : Option (List String))
    (p : Page Price) : Page Price :=
  let p1 : Page Price :=
    { p with state := { p.state with products := dataProducts.getD [],
                                      categories := dataCategories.getD [] } }
  let p2 := populateCategoryFilter p1
  { p2 with state := renderProducts toFixed2 p2.state }

/-- The products used when `data/products.json` cannot be loaded; `cents n`
stands for the number literal with the value n / 100. -/
def fallbackProducts {Price : Type} (cents : Nat → Price) : List (Product Price) :=
  [
    { id := "kabel-01", name := "USB‑C Kabel 1 m", category := "Zubehör",
      description :=
        "Hochwertiges USB‑C Kabel mit 1 m Länge für schnelle Datenübertragung und zuverlässiges Laden.",
      price := cents 999, image := "images/tools.svg" },
    { id := "maus-01", name := "Kabellose Maus", category := "Zubehör",
      description :=
        "Ergonomische kabellose Maus mit hoher Präzision und langer Batterielaufzeit.",
      price := cents 2499, image := "images/laptop-code.svg" },
    { id := "ssd-01", name := "256 GB SSD", category := "Ersatzteile",
      description :=
        "Schnelle Solid‑State‑Disk für einen deutlichen Leistungsschub Ihres Computers.",
      price := cents 4999, image := "images/database.svg" },
    { id := "ram-01", name := "8 GB DDR4 RAM", category := "Ersatzteile",
      description :=
        "Arbeitsspeicher für flüssige Performance bei alltäglichen Aufgaben und Multitasking.",
      price := cents 3499, image := "images/tools.svg" },
    { id := "office-01", name := "Office Suite Lizenz", category := "Software & Lizenzen",
      description :=
        "Umfangreiche Office‑Suite für effizientes Arbeiten in Beruf und Freizeit.",
      price := cents 11999, image := "images/laptop-code.svg" },
    { id := "security-01", name := "Sicherheitssoftware Jahreslizenz", category := "Software & Lizenzen",
      description :=
        "Schützen Sie Ihre Geräte vor Viren, Malware und Phishing mit einer bewährten Sicherheitslösung.",
      price := cents 5999, image := "images/database.svg" },
    { id := "gutschein-01", name := "Service‑Gutschein 1 h", category := "Service‑Gutscheine",
      description :=
        "Verschenken Sie professionelle IT‑Hilfe: Gutschein für eine Stunde Support Ihrer Wahl.",
      price := cents 3990, image := "images/tools.svg" },
    { id := "gutschein-02", name := "Service‑Gutschein 3 h", category := "Service‑Gutscheine",
      description :=
        "Drei Stunden geballtes IT‑Know‑how – ideal für größere Projekte oder umfassende Beratung.",
      price := cents 9990, image := "images/laptop-code.svg" } ]

/-- The handler of a failed load: the fallback products, the distinct categories
of these products, then `populateCategoryFilter()` and `renderProducts()`. -/
def fetchFailed {Price : Type} (toFixed2 : Price → String) (cents : Nat → Price)
    (p : Page Price) : Page Price :=
  let products := fallbackProducts cents
  let p1 : Page Price :=
    { p with state := { p.state with products := products,
                                      categories := distinct (products.map (fun q => q.category)) } }
  let p2 := populateCategoryFilter p1
  { p2 with state := renderProducts toFixed2 p2.state }

end Shop

/-! ## States of the widgets and sample states -/

namespace CalendarWidget

open JS Dom

/-- No cell of the table body carries the class `selected`. -/
def NoCellSelected (tbody : List (List Cell)) : Prop :=
  ∀ i j c, cellAt tbody i j = some c → "selected" ∉ c.classList

/-- The booking form is shown: its class list holds `visible`. -/
def FormVisible (w : Widget) : Prop := "visible" ∈ w.bookingForm

/-- Every `Date` object that `renderCalendar(date)` of either script builds is a
valid date: the date passed, `firstDay`, `lastDay`, and for each day of the loop
`cellDate` and the date shifted by the timezone offset.  With an invalid
`lastDay` the day loop of the scripts does not run, and with an invalid `cellDate`
`toISOString()` throws a RangeError. -/
def datesValid (tz date : Int) : Bool :=
  let year := getFullYear tz date
  let month := getMonth tz date
  validTime date && validTime (newDate tz year month 1)
    && validTime (newDate tz year (month + 1) 0)
    && (List.range' 1 (totalDays tz date).toNat).all (fun day =>
      validTime (newDate tz year month day)
        && validTime (getTime (newDate tz year month day)
            - getTimezoneOffset tz (newDate tz year month day) * 60000))

end CalendarWidget

namespace Calendar

open JS Dom CalendarWidget

/-- The states that the page of `src/js/calendar.js` reaches from its load. -/
inductive Reachable (tz : Int) : Widget → Prop where
  | loaded (now : Int) (form : List String) (name email : String) (service : SelectEl)
      (bookings : Stored Booking) : Reachable tz (loaded now form name email service bookings)
  | step (w : Widget) (e : Event) : Reachable tz w → Reachable tz (step tz w e)

end Calendar

namespace WebsiteCalendar

open JS Dom CalendarWidget

/-- The states that the page of `src/website/js/calendar.js` reaches from its
load. -/
inductive Reachable (tz : Int) : Widget → Prop where
  | loaded (now : Int) (form : List String) (name email : String) (service : SelectEl)
      (bookings : Stored Booking) : Reachable tz (loaded now form name email service bookings)
  | step (w : Widget) (e : Event) : Reachable tz w → Reachable tz (step tz w e)

end WebsiteCalendar

namespace Sample

open JS Dom CalendarWidget

/-- Local midnight of 2025-09-15 for a viewer two hours east of Greenwich. -/
def september2025 : Int := newDate (-120) 2025 8 15

/-- The time value of 0000-02-29T00:00:00Z. -/
def leapDayYearZero : Int := -62162121600000

/-- A calendar page in September 2025 whose availability list is the fallback
list of `src/js/calendar.js`, before the first rendering. -/
def page : Widget :=
  { loaded september2025 [] "" "" { options := ["", "beratung", "reparatur"], selectedIndex := 0 }
      Stored.absent with availability := Calendar.fallbackDates }

/-- The page of `src/js/calendar.js`, two hours east of Greenwich, after the
availability file failed to load, a click on 1 September 2025 (first row, Monday
column) and the filling of the form. -/
def booked : Widget :=
  [Event.fetched none, Event.click 0 1, Event.typeName "  Ada Lovelace ",
    Event.typeEmail "ada@example.org", Event.chooseService 1].foldl
    (Calendar.step (-120)) (loaded september2025 [] "" ""
      { options := ["", "beratung", "reparatur"], selectedIndex := 0 } Stored.absent)

/-- The page of `src/website/js/calendar.js`, two hours east of Greenwich, after
the availability list arrived, a click on the cell of 2 September 2025 (first row,
Tuesday column) and the filling of the form. -/
def websiteBooked : Widget :=
  [Event.fetched (some Calendar.fallbackDates), Event.click 0 2,
    Event.typeName "Ada Lovelace", Event.typeEmail "ada@example.org",
    Event.chooseService 1].foldl
    (WebsiteCalendar.step (-120)) (loaded september2025 [] "" ""
      { options := ["", "beratung", "reparatur"], selectedIndex := 0 } Stored.absent)

/-- Text with two decimals of a price held in cents. -/
def centsText (cents : Nat) : String :=
  toString (cents / 100) ++ "." ++ String.mk (pad2 (cents % 100))

/-- A shop page with three products of two categories and a cart of two lines. -/
def shop : Shop.State Nat :=
  { products :=
      [{ id := "kabel-01", name := "USB-C Kabel 1 m", category := "Zubehör",
         description := "Kabel", price := 999, image := "images/tools.svg" },
       { id := "maus-01", name := "Kabellose Maus", category := "Zubehör",
         description := "Maus", price := 2499, image := "images/laptop-code.svg" },
       { id := "ssd-01", name := "256 GB SSD", category := "Ersatzteile",
         description := "SSD", price := 4999, image := "images/database.svg" }]
    categories := ["Zubehör", "Ersatzteile"]
    categoryValue := ""
    productList := []
    cartCount := 0
    cart := Stored.list [{ id := "maus-01", quantity := 2 }, { id := "ssd-01", quantity := 1 }]
    alerts := [] }

/-- A shop page with a product whose category is the empty string. -/
def shopWithUnnamedCategory : Shop.State Nat :=
  { shop with
    products :=
      [{ id := "kabel-01", name := "USB-C Kabel 1 m", category := "",
         description := "Kabel", price := 999, image := "images/tools.svg" },
       { id := "maus-01", name := "Kabellose Maus", category := "Zubehör",
         description := "Maus", price := 2499, image := "images/laptop-code.svg" }] }

/-- The sample shop with a cart of one line whose quantity is 2^53. -/
def shopWithLargeQuantity : Shop.State Nat :=
  { shop with cart := Stored.list [{ id := "kabel-01", quantity := 9007199254740992 }] }

/-- The sample shop page before the catalog data has arrived. -/
def shopPage : Shop.Page Nat :=
  { state := { shop with products := [], categories := [] }, categoryOptions := [] }

/-- Local midnight of 2025-01-31 for a viewer two hours east of Greenwich. -/
def january31 : Int := newDate (-120) 2025 0 31

/-- Local midnight of 2025-03-31 for a viewer two hours east of Greenwich. -/
def march31 : Int := newDate (-120) 2025 2 31

/-- The time of a click: 2025-08-20T10:30:00Z. -/
def clickTime : Int := 1755685800000

end Sample

/-! ## Facts about the time arithmetic -/

namespace JS

theorem DayFromYear_succ (y : Int) : DayFromYear (y + 1) = DayFromYear y + DaysInYear y := by
  unfold DayFromYear DaysInYear
  split_ifs <;> omega

theorem yearFromDay_spec (d : Int) :
    DayFromYear (yearFromDay d) ≤ d ∧ d < DayFromYear (yearFromDay d + 1) := by
  unfold yearFromDay
  simp only []
  split_ifs with h1 h2
  · refine ⟨h1, ?_⟩
    unfold DayFromYear; omega
  · exact ⟨h2, by omega⟩
  · rw [Int.sub_add_cancel]
    refine ⟨?_, by omega⟩
    unfold DayFromYear; omega

theorem yearFromDay_unique (d y : Int) (h1 : DayFromYear y ≤ d)
    (h2 : d < DayFromYear (y + 1)) : yearFromDay d = y := by
  have hs := yearFromDay_spec d
  have mono : ∀ a b : Int, a < b → DayFromYear (a + 1) ≤ DayFromYear b := by
    intro a b hab
    unfold DayFromYear; omega
  by_contra hne
  rcases lt_or_gt_of_ne hne with h | h
  · have := mono _ _ h; omega
  · have := mono _ _ h; omega

theorem DaysInYear_cases (y : Int) : DaysInYear y = 365 ∨ DaysInYear y = 366 := by
  unfold DaysInYear; split_ifs <;> simp

theorem DayWithinYear_range (t : Int) :
    0 ≤ DayWithinYear t ∧ DayWithinYear t < DaysInYear (YearFromTime t) := by
  have hs := yearFromDay_spec (Day t)
  rw [DayFromYear_succ] at hs
  unfold DayWithinYear YearFromTime
  omega

theorem monthOfDay_range (d l : Int) : 0 ≤ monthOfDay d l ∧ monthOfDay d l ≤ 11 := by
  generalize h : monthOfDay d l = x
  unfold monthOfDay at h
  simp only [ite_eq_iff] at h
  omega

theorem MonthFromTime_range (t : Int) : 0 ≤ MonthFromTime t ∧ MonthFromTime t ≤ 11 :=
  monthOfDay_range _ _

theorem dateOfDay_monthOfDay (d l : Int) (hd : 0 ≤ d) (hl0 : 0 ≤ l) (hl1 : l ≤ 1)
    (hy : d < 365 + l) :
    1 ≤ dateOfDay (monthOfDay d l) d l ∧ dateOfDay (monthOfDay d l) d l ≤ 31 := by
  generalize h : monthOfDay d l = x
  generalize hb : dateOfDay x d l = b
  unfold monthOfDay at h
  unfold dateOfDay at hb
  simp only [ite_eq_iff] at h hb
  omega

theorem InLeapYear_flag (t : Int) :
    (InLeapYear t = 0 ∧ DaysInYear (YearFromTime t) = 365) ∨
    (InLeapYear t = 1 ∧ DaysInYear (YearFromTime t) = 366) := by
  unfold InLeapYear
  rcases DaysInYear_cases (YearFromTime t) with hy | hy <;> simp [hy]

theorem leapFlag_flag (y : Int) :
    (leapFlag y = 0 ∧ DaysInYear y = 365) ∨ (leapFlag y = 1 ∧ DaysInYear y = 366) := by
  unfold leapFlag
  rcases DaysInYear_cases y with hy | hy <;> simp [hy]

theorem DateFromTime_range (t : Int) : 1 ≤ DateFromTime t ∧ DateFromTime t ≤ 31 := by
  have hr := DayWithinYear_range t
  have hl := InLeapYear_flag t
  unfold DateFromTime MonthFromTime
  apply dateOfDay_monthOfDay _ _ hr.1 <;> omega

@[simp] theorem daysBeforeMonth_0 (l : Int) : daysBeforeMonth 0 l = 0 := by
  simp [daysBeforeMonth]
@[simp] theorem daysBeforeMonth_1 (l : Int) : daysBeforeMonth 1 l = 31 := by
  simp [daysBeforeMonth]
@[simp] theorem daysBeforeMonth_2 (l : Int) : daysBeforeMonth 2 l = 59 + l := by
  simp [daysBeforeMonth]
@[simp] theorem daysBeforeMonth_3 (l : Int) : daysBeforeMonth 3 l = 90 + l := by
  simp [daysBeforeMonth]
@[simp] theorem daysBeforeMonth_4 (l : Int) : daysBeforeMonth 4 l = 120 + l := by
  simp [daysBeforeMonth]
@[simp] theorem daysBeforeMonth_5 (l : Int) : daysBeforeMonth 5 l = 151 + l := by
  simp [daysBeforeMonth]
@[simp] theorem daysBeforeMonth_6 (l : Int) : daysBeforeMonth 6 l = 181 + l := by
  simp [daysBeforeMonth]
@[simp] theorem daysBeforeMonth_7 (l : Int) : daysBeforeMonth 7 l = 212 + l := by
  simp [daysBeforeMonth]
@[simp] theorem daysBeforeMonth_8 (l : Int) : daysBeforeMonth 8 l = 243 + l := by
  simp [daysBeforeMonth]
@[simp] theorem daysBeforeMonth_9 (l : Int) : daysBeforeMonth 9 l = 273 + l := by
  simp [daysBeforeMonth]
@[simp] theorem daysBeforeMonth_10 (l : Int) : daysBeforeMonth 10 l = 304 + l := by
  simp [daysBeforeMonth]
@[simp] theorem daysBeforeMonth_11 (l : Int) : daysBeforeMonth 11 l = 334 + l := by
  simp [daysBeforeMonth]

theorem monthOfDay_unique (m d l : Int) (h0 : 0 ≤ m) (h1 : m ≤ 11) (hl0 : 0 ≤ l)
    (hlo : daysBeforeMonth m l ≤ d) (hhi : d < daysBeforeMonth (m + 1) l ∨ m = 11) :
    monthOfDay d l = m := by
  generalize h : monthOfDay d l = x
  unfold monthOfDay at h
  simp only [ite_eq_iff] at h
  interval_cases m <;> simp at hlo hhi <;> omega

theorem dateOfDay_eq (m d l : Int) (h0 : 0 ≤ m) (h1 : m ≤ 11) :
    dateOfDay m d l = d - daysBeforeMonth m l + 1 := by
  interval_cases m <;> simp [dateOfDay] <;> omega

/-- Length of a month against the table of month starts. -/
theorem daysBeforeMonth_succ (y m : Int) (h0 : 0 ≤ m) (h1 : m ≤ 11) :
    (m < 11 → daysBeforeMonth (m + 1) (leapFlag y) =
      daysBeforeMonth m (leapFlag y) + DaysInMonth y m) ∧
    (m = 11 → DaysInYear y = daysBeforeMonth m (leapFlag y) + DaysInMonth y m) := by
  rcases leapFlag_flag y with ⟨hl, hy⟩ | ⟨hl, hy⟩ <;>
    interval_cases m <;> simp [DaysInMonth, hl, hy]

theorem DaysInMonth_range (y m : Int) : 28 ≤ DaysInMonth y m ∧ DaysInMonth y m ≤ 31 := by
  unfold DaysInMonth
  split_ifs <;> omega

theorem MakeDay_eq (y m d : Int) (h0 : 0 ≤ m) (h1 : m ≤ 11) :
    MakeDay y m d = DayFromYear y + daysBeforeMonth m (leapFlag y) + d - 1 := by
  unfold MakeDay
  have e1 : m / 12 = 0 := by omega
  have e2 : m % 12 = m := by omega
  simp only [e1, e2, add_zero]

/-- What the date getters read on a day built by MakeDay from a calendar date. -/
theorem civil_of_MakeDay (y m d t : Int) (h0 : 0 ≤ m) (h1 : m ≤ 11) (hd1 : 1 ≤ d)
    (hd2 : d ≤ DaysInMonth y m) (ht : Day t = MakeDay y m d) :
    YearFromTime t = y ∧ MonthFromTime t = m ∧ DateFromTime t = d := by
  rw [MakeDay_eq y m d h0 h1] at ht
  have hs := daysBeforeMonth_succ y m h0 h1
  have hl := leapFlag_flag y
  have hb0 : 0 ≤ daysBeforeMonth m (leapFlag y) := by
    rcases hl with ⟨hl, _⟩ | ⟨hl, _⟩ <;> interval_cases m <;> simp [hl]
  have hb1 : daysBeforeMonth m (leapFlag y) + DaysInMonth y m ≤ DaysInYear y := by
    rcases hl with ⟨hl, hy⟩ | ⟨hl, hy⟩ <;> interval_cases m <;> simp [hl, hy, DaysInMonth]
  have hy : YearFromTime t = y := by
    unfold YearFromTime
    apply yearFromDay_unique
    · omega
    · rw [DayFromYear_succ]; omega
  have hw : DayWithinYear t = daysBeforeMonth m (leapFlag y) + d - 1 := by
    unfold DayWithinYear; rw [hy]; omega
  have hf : InLeapYear t = leapFlag y := by
    unfold InLeapYear leapFlag; rw [hy]
  have hm : MonthFromTime t = m := by
    unfold MonthFromTime
    rw [hw, hf]
    apply monthOfDay_unique m _ _ h0 h1
    · omega
    · omega
    · by_cases h11 : m = 11
      · exact Or.inr h11
      · left
        have := hs.1 (by omega)
        omega
  refine ⟨hy, hm, ?_⟩
  unfold DateFromTime
  rw [hm, hw, hf, dateOfDay_eq m _ _ h0 h1]
  omega

/-- The day before the first of the next month is the last day of the month. -/
theorem MakeDay_last (y m : Int) (h0 : 0 ≤ m) (h1 : m ≤ 11) :
    MakeDay y (m + 1) 0 = MakeDay y m (DaysInMonth y m) := by
  have hs := daysBeforeMonth_succ y m h0 h1
  rw [MakeDay_eq y m _ h0 h1]
  by_cases h11 : m = 11
  · subst h11
    have hy := hs.2 rfl
    unfold MakeDay
    norm_num
    rw [DayFromYear_succ]
    simp at hy ⊢
    omega
  · rw [MakeDay_eq y (m + 1) _ (by omega) (by omega), hs.1 (by omega)]
    omega

theorem WeekDay_range (t : Int) : 0 ≤ WeekDay t ∧ WeekDay t ≤ 6 := by
  unfold WeekDay; omega

end JS

/-! ## Facts about the text of a date -/

namespace JS

theorem LocalTime_UTC (tz t : Int) : LocalTime tz (UTC tz t) = t := by
  unfold LocalTime UTC; omega

theorem Day_MakeDate (day : Int) : Day (MakeDate day (MakeTime 0 0 0 0)) = day := by
  unfold Day MakeDate MakeTime msPerDay msPerHour msPerMinute msPerSecond; omega

theorem LocalTime_newDate (tz year month date : Int) (hy : year < 0 ∨ 99 < year) :
    LocalTime tz (newDate tz year month date)
      = MakeDate (MakeDay year month date) (MakeTime 0 0 0 0) := by
  unfold newDate
  have : ¬ (0 ≤ year ∧ year ≤ 99) := by omega
  simp only [if_neg this, LocalTime_UTC]

theorem getTimezoneOffset_eq (tz t : Int) : getTimezoneOffset tz t = tz := by
  unfold getTimezoneOffset LocalTime msPerMinute; omega

theorem getters_newDate (tz year month d : Int) (hy : year < 0 ∨ 99 < year)
    (h0 : 0 ≤ month) (h1 : month ≤ 11) (hd1 : 1 ≤ d) (hd2 : d ≤ DaysInMonth year month) :
    getFullYear tz (newDate tz year month d) = year ∧
    getMonth tz (newDate tz year month d) = month ∧
    getDate tz (newDate tz year month d) = d := by
  unfold getFullYear getMonth getDate
  rw [LocalTime_newDate tz year month d hy]
  exact civil_of_MakeDay year month d _ h0 h1 hd1 hd2 (Day_MakeDate _)

theorem getDate_lastDay (tz year month : Int) (hy : year < 0 ∨ 99 < year)
    (h0 : 0 ≤ month) (h1 : month ≤ 11) :
    getDate tz (newDate tz year (month + 1) 0) = DaysInMonth year month := by
  unfold getDate
  rw [LocalTime_newDate tz year _ _ hy, MakeDay_last year month h0 h1]
  have hr := DaysInMonth_range year month
  exact (civil_of_MakeDay year month _ _ h0 h1 (by omega) le_rfl (Day_MakeDate _)).2.2

theorem digitChar_ne_T (n : Nat) : (digitChar n != 'T') = true := by
  unfold digitChar
  split <;> decide

theorem takeWhile_date (a b c rest : List Char) (ha : ∀ x ∈ a, (x != 'T') = true)
    (hb : ∀ x ∈ b, (x != 'T') = true) (hc : ∀ x ∈ c, (x != 'T') = true) :
    (a ++ '-' :: b ++ '-' :: c ++ 'T' :: rest).takeWhile (fun x => x != 'T')
      = a ++ '-' :: b ++ '-' :: c := by
  have hall : ∀ x ∈ a ++ '-' :: b ++ '-' :: c, (x != 'T') = true := by
    intro x hx
    simp only [List.mem_append, List.mem_cons] at hx
    rcases hx with (h | h | h) | h | h
    · exact ha x h
    · subst h; decide
    · exact hb x h
    · subst h; decide
    · exact hc x h
  have e : a ++ '-' :: b ++ '-' :: c ++ 'T' :: rest
      = (a ++ '-' :: b ++ '-' :: c) ++ 'T' :: rest := by simp
  rw [e, List.takeWhile_append_of_pos hall]
  simp

theorem pad2_ne_T (n : Nat) : ∀ x ∈ pad2 n, (x != 'T') = true := by
  intro x hx
  simp only [pad2, List.mem_cons, List.mem_singleton, List.not_mem_nil, or_false] at hx
  rcases hx with h | h <;> subst h <;> exact digitChar_ne_T _

theorem pad4_ne_T (n : Nat) : ∀ x ∈ pad4 n, (x != 'T') = true := by
  intro x hx
  simp only [pad4, List.mem_cons, List.mem_singleton, List.not_mem_nil, or_false] at hx
  rcases hx with h | h | h | h <;> subst h <;> exact digitChar_ne_T _

theorem splitT0_toISOString (t : Int) (hy : 0 ≤ YearFromTime t ∧ YearFromTime t ≤ 9999) :
    splitT0 (toISOString t)
      = ymdText (YearFromTime t) (MonthFromTime t + 1) (DateFromTime t) := by
  unfold splitT0 toISOString ymdText isoYear
  rw [if_pos hy]
  simp only []
  congr 1
  have := takeWhile_date (pad4 (YearFromTime t).toNat) (pad2 (MonthFromTime t + 1).toNat)
    (pad2 (DateFromTime t).toNat)
    (pad2 (HourFromTime t).toNat ++ ':' :: pad2 (MinFromTime t).toNat
      ++ ':' :: pad2 (SecFromTime t).toNat ++ '.' :: pad3 (msFromTime t).toNat ++ ['Z'])
    (pad4_ne_T _) (pad2_ne_T _) (pad2_ne_T _)
  simpa using this

end JS

/-! ## The month grid -/

namespace CalendarWidget

open JS Dom

theorem dayStep_inv (s : Nat) (f : Nat → Cell) (j : Nat) (st : Rows)
    (h1 : st.tbody.flatten ++ st.row = List.replicate s blankCell ++ (List.range' 1 j).map f)
    (h2 : ∀ row ∈ st.tbody, row.length = 7)
    (h3 : st.row.length = (s + j) % 7)
    (h4 : ∀ row ∈ st.tbody, ∃ c ∈ row, ∃ d, c = f d) :
    let st1 := dayStep s f st (1 + j)
    st1.tbody.flatten ++ st1.row
        = List.replicate s blankCell ++ (List.range' 1 (j + 1)).map f ∧
      (∀ row ∈ st1.tbody, row.length = 7) ∧
      st1.row.length = (s + (j + 1)) % 7 ∧
      (∀ row ∈ st1.tbody, ∃ c ∈ row, ∃ d, c = f d) ∧
      (st1.row ≠ [] → ∃ c ∈ st1.row, ∃ d, c = f d) := by
  intro st1
  have hflat : st.tbody.flatten ++ (st.row ++ [f (1 + j)])
      = List.replicate s blankCell ++ (List.range' 1 (j + 1)).map f := by
    rw [List.range'_1_concat, List.map_append, ← List.append_assoc, ← List.append_assoc, ← h1]
    simp
  by_cases hc : (s + (1 + j)) % 7 = 0
  · have e : st1 = { tbody := st.tbody ++ [st.row ++ [f (1 + j)]], row := [] } := by
      simp [st1, dayStep, hc]
    rw [e]
    refine ⟨?_, ?_, ?_, ?_, ?_⟩
    · simpa using hflat
    · intro row hrow
      rcases List.mem_append.1 hrow with h | h
      · exact h2 row h
      · simp at h; subst h; simp; omega
    · simp; omega
    · intro row hrow
      rcases List.mem_append.1 hrow with h | h
      · exact h4 row h
      · simp at h; subst h
        exact ⟨f (1 + j), by simp, 1 + j, rfl⟩
    · intro h; exact absurd rfl h
  · have e : st1 = { tbody := st.tbody, row := st.row ++ [f (1 + j)] } := by
      simp [st1, dayStep, hc]
    rw [e]
    refine ⟨hflat, h2, ?_, h4, ?_⟩
    · simp; omega
    · intro _
      exact ⟨f (1 + j), by simp, 1 + j, rfl⟩

theorem loop_inv (s : Nat) (f : Nat → Cell) (hs : s < 7) (j : Nat) :
    let st := (List.range' 1 j).foldl (dayStep s f)
      { tbody := [], row := List.replicate s blankCell }
    st.tbody.flatten ++ st.row = List.replicate s blankCell ++ (List.range' 1 j).map f ∧
      (∀ row ∈ st.tbody, row.length = 7) ∧
      st.row.length = (s + j) % 7 ∧
      (∀ row ∈ st.tbody, ∃ c ∈ row, ∃ d, c = f d) ∧
      (1 ≤ j → st.row ≠ [] → ∃ c ∈ st.row, ∃ d, c = f d) := by
  induction j with
  | zero =>
    simp
    omega
  | succ j ih =>
    intro st
    obtain ⟨h1, h2, h3, h4, _⟩ := ih
    have hst : st = dayStep s f ((List.range' 1 j).foldl (dayStep s f)
        { tbody := [], row := List.replicate s blankCell }) (1 + j) := by
      simp only [st, List.range'_1_concat, List.foldl_append, List.foldl_cons, List.foldl_nil]
    rw [hst]
    obtain ⟨a, b, c, d, e⟩ := dayStep_inv s f j _ h1 h2 h3 h4
    exact ⟨a, b, c, d, fun _ => e⟩

theorem buildBody_spec (s n : Nat) (f : Nat → Cell) (hs : s < 7) :
    (buildBody s n f).flatten = List.replicate s blankCell ++ (List.range' 1 n).map f
        ++ List.replicate ((7 - (s + n) % 7) % 7) blankCell ∧
      (∀ row ∈ buildBody s n f, row.length = 7) ∧
      (1 ≤ n → ∀ row ∈ buildBody s n f, ∃ c ∈ row, ∃ d, c = f d) := by
  obtain ⟨h1, h2, h3, h4, h5⟩ := loop_inv s f hs n
  try simp only [] at h1 h2 h3 h4 h5
  unfold buildBody finishRows
  simp only []
  generalize (List.range' 1 n).foldl (dayStep s f)
    { tbody := [], row := List.replicate s blankCell } = st at h1 h2 h3 h4 h5
  have hlt : (s + n) % 7 < 7 := Nat.mod_lt _ (by omega)
  by_cases hz : st.row.length = 0
  · have hrow : st.row = [] := List.length_eq_zero.1 hz
    have hcond : ¬ ((7 : Int) - (st.row.length : Int) < 7) := by omega
    rw [if_neg hcond]
    have hk : (7 - (s + n) % 7) % 7 = 0 := by omega
    rw [hk]
    refine ⟨?_, h2, fun _ => h4⟩
    rw [← h1, hrow]; simp
  · have hcond : (7 : Int) - (st.row.length : Int) < 7 := by omega
    rw [if_pos hcond]
    have hk : ((7 : Int) - (st.row.length : Int)).toNat = (7 - (s + n) % 7) % 7 := by omega
    rw [hk]
    refine ⟨?_, ?_, ?_⟩
    · rw [List.flatten_append, ← h1]; simp
    · intro row hrow
      rcases List.mem_append.1 hrow with h | h
      · exact h2 row h
      · simp at h; subst h; simp; omega
    · intro hn row hrow
      rcases List.mem_append.1 hrow with h | h
      · exact h4 row h
      · simp at h; subst h
        obtain ⟨c, hc, d, hd⟩ := h5 hn (by intro h0; rw [h0] at hz; simp at hz)
        exact ⟨c, List.mem_append_left _ hc, d, hd⟩

theorem cellAt_of_rows (tb : List (List Cell)) (h : ∀ row ∈ tb, row.length = 7) (i : Nat) :
    cellAt tb (i / 7) (i % 7) = tb.flatten[i]? := by
  induction tb generalizing i with
  | nil => simp [cellAt]
  | cons r rs ih =>
    have hr : r.length = 7 := h r (by simp)
    have hrs : ∀ row ∈ rs, row.length = 7 := fun row hrow => h row (by simp [hrow])
    by_cases hi : i < 7
    · have e1 : i / 7 = 0 := by omega
      have e2 : i % 7 = i := by omega
      rw [e1, e2]
      simp only [cellAt, List.flatten_cons, List.getElem?_cons_zero]
      rw [List.getElem?_append_left (by omega)]
    · have e1 : i / 7 = (i - 7) / 7 + 1 := by omega
      have e2 : i % 7 = (i - 7) % 7 := by omega
      rw [e1, e2]
      have := ih hrs (i - 7)
      simp only [cellAt, List.flatten_cons, List.getElem?_cons_succ] at this ⊢
      rw [this, List.getElem?_append_right (by omega), hr]

theorem monthGrid_buildBody (s n : Nat) (f : Nat → Cell) (hs : s < 7) (hn : 1 ≤ n)
    (hf : ∀ d, (f d).textContent = some d) : MonthGrid s n f (buildBody s n f) := by
  obtain ⟨hflat, hrows, hday⟩ := buildBody_spec s n f hs
  have hlen : (buildBody s n f).flatten.length = s + n + (7 - (s + n) % 7) % 7 := by
    rw [hflat]; simp; omega
  refine ⟨hrows, hflat, hf, hlen, ?_, ?_, ?_, ?_⟩
  · rw [hlen]; omega
  · rw [hflat]
    simp only [List.countP_append, List.countP_replicate, List.countP_map]
    have hb : (blankCell.textContent.isSome) = false := rfl
    have hall : List.countP ((fun c : Cell => c.textContent.isSome) ∘ f) (List.range' 1 n)
        = (List.range' 1 n).length := by
      rw [List.countP_eq_length]
      intro d _
      simp [hf d]
    simp [hb, hall]
  · intro d hd1 hd2
    rw [cellAt_of_rows _ hrows, hflat]
    rw [List.getElem?_append_left (by simp; omega),
      List.getElem?_append_right (by simp; omega)]
    simp only [List.length_replicate, List.getElem?_map]
    have e : s + d - 1 - s = d - 1 := by omega
    rw [e, List.getElem?_range' 1 1 (by omega : d - 1 < n)]
    simp
    congr 1
    omega
  · intro row hrow
    obtain ⟨c, hc, d, hd⟩ := hday hn row hrow
    refine ⟨c, hc, ?_⟩
    rw [hd, hf d]; simp

theorem startDayOfWeek_range (tz date : Int) :
    0 ≤ startDayOfWeek tz date ∧ startDayOfWeek tz date ≤ 6 :=
  WeekDay_range _

theorem totalDays_range (tz date : Int) : 1 ≤ totalDays tz date ∧ totalDays tz date ≤ 31 :=
  DateFromTime_range _

theorem dayCell_textContent (availability : List String) (key : String) (d : Nat) :
    (dayCell availability key d).textContent = some d := by
  unfold dayCell; split <;> rfl

/-- The table body of `renderCalendar`, in either script, has the layout of a
month grid for the weekday and the number of days that the script reads from its
two `Date` objects. -/
theorem renderWith_grid (dateStrOf : Int → Int → Int → Int → String) (tz date : Int)
    (w : Widget) :
    MonthGrid (startDayOfWeek tz date).toNat (totalDays tz date).toNat
      (fun d => dayCell w.availability
        (dateStrOf tz (getFullYear tz date) (getMonth tz date) d) d)
      (renderWith dateStrOf tz date w).tbody := by
  have hs := startDayOfWeek_range tz date
  have hn := totalDays_range tz date
  exact monthGrid_buildBody _ _ _ (by omega) (by omega)
    (fun d => dayCell_textContent _ _ d)

theorem startDayOfWeek_eq (tz date : Int)
    (hy : getFullYear tz date < 0 ∨ 99 < getFullYear tz date) :
    startDayOfWeek tz date = weekdayOfFirst (getFullYear tz date) (getMonth tz date) := by
  unfold startDayOfWeek weekdayOfFirst getDay
  rw [LocalTime_newDate _ _ _ _ hy]
  rfl

theorem totalDays_eq (tz date : Int)
    (hy : getFullYear tz date < 0 ∨ 99 < getFullYear tz date) :
    totalDays tz date = DaysInMonth (getFullYear tz date) (getMonth tz date) := by
  have hm := MonthFromTime_range (LocalTime tz date)
  exact getDate_lastDay tz _ _ hy hm.1 hm.2

end CalendarWidget

namespace Calendar

open JS Dom CalendarWidget

theorem dateStr_eq (tz year month d : Int) (hy : 100 ≤ year ∧ year ≤ 9999)
    (h0 : 0 ≤ month) (h1 : month ≤ 11) (hd1 : 1 ≤ d) (hd2 : d ≤ DaysInMonth year month) :
    dateStr tz year month d = ymdText year (month + 1) d := by
  unfold dateStr
  simp only [getTimezoneOffset_eq, getTime, newDateOfValue]
  have e : newDate tz year month d - tz * 60000
      = MakeDate (MakeDay year month d) (MakeTime 0 0 0 0) := by
    rw [← LocalTime_newDate tz year month d (by omega)]
    unfold LocalTime msPerMinute; rfl
  rw [e]
  obtain ⟨a, b, c⟩ := civil_of_MakeDay year month d _ h0 h1 hd1 hd2 (Day_MakeDate _)
  rw [splitT0_toISOString _ (by rw [a]; omega), a, b, c]

end Calendar

/-! ## The keys and the layout of the rendered month -/

open JS Dom CalendarWidget

/-- C1. In `renderCalendar` of `src/js/calendar.js`, for a date in a four-digit
year `year` and month `month`, and a day `d` of that month: the key computed for
day `d` is the zero-padded text YYYY-MM-DD of the local date (year, month + 1, d),
whatever the timezone offset; day `d` is among the rendered days, and its cell
carries the day number, has class `available` and a click listener bound to that
key when the key is in the availability list, and class `unavailable` and no
listener otherwise. -/
theorem Calendar.renderCalendar_day_key (tz year month date : Int) (d : Nat) (w : Widget)
    (hyear : getFullYear tz date = year) (hmonth : getMonth tz date = month)
    (hy : 1000 ≤ year ∧ year ≤ 9999) (hm : 0 ≤ month ∧ month ≤ 11)
    (hd : 1 ≤ d ∧ (d : Int) ≤ DaysInMonth year month) :
    Calendar.dateStr tz year month d = ymdText year (month + 1) d ∧
    totalDays tz date = DaysInMonth year month ∧
    ∃ c, cellAt (Calendar.renderCalendar tz date w).tbody
          (((startDayOfWeek tz date).toNat + d - 1) / 7)
          (((startDayOfWeek tz date).toNat + d - 1) % 7) = some c ∧
      c.textContent = some d ∧
      (ymdText year (month + 1) d ∈ w.availability →
        c.classList = ["available"] ∧ c.onClick = some (ymdText year (month + 1) d)) ∧
      (ymdText year (month + 1) d ∉ w.availability →
        c.classList = ["unavailable"] ∧ c.onClick = none) := by
  have hkey := Calendar.dateStr_eq tz year month d ⟨by omega, hy.2⟩ hm.1 hm.2
    (by exact_mod_cast hd.1) hd.2
  have htot : totalDays tz date = DaysInMonth year month := by
    have := totalDays_eq tz date (by omega)
    rw [hyear, hmonth] at this
    exact this
  refine ⟨hkey, htot, ?_⟩
  have hgrid := renderWith_grid Calendar.dateStr tz date w
  obtain ⟨_, _, _, _, _, _, hcell, _⟩ := hgrid
  have hcd := hcell d hd.1 (by omega)
  simp only [hyear, hmonth, hkey] at hcd
  refine ⟨_, hcd, dayCell_textContent _ _ _, ?_, ?_⟩
  · intro hmem
    simp [dayCell, hmem]
  · intro hmem
    simp [dayCell, hmem]

/-- Witness of C1: September 2025 seen two hours east of Greenwich, day 1. -/
theorem Calendar.renderCalendar_day_key_witness :
    Calendar.dateStr (-120) 2025 8 1 = "2025-09-01" :=
  (Calendar.renderCalendar_day_key (-120) 2025 8 Sample.september2025 1 Sample.page
    (by decide) (by decide) (by decide) (by decide) (by decide)).1

/-- The layout of the rendered month where it holds.  In `renderCalendar` of
both scripts, for a date whose year is outside 0..99 and for which the `Date`
objects built are valid dates: with `s` the weekday of the first of the month and
`n` the number of days of the month, the table body is a month grid for `s` and
`n`: rows of seven cells that, row by row, are `s` blank cells, the day cells 1
to `n` and `(7 - (s + n) mod 7) mod 7` blank cells, the cell count is a multiple
of 7, `n` cells carry a day number, day `d` sits in column `(s + d - 1) mod 7`,
and no row is blank throughout. -/
theorem renderCalendar_month_grid (tz date : Int) (w : Widget)
    (hy : getFullYear tz date < 0 ∨ 99 < getFullYear tz date)
    (hvalid : datesValid tz date = true) :
    validTime date = true ∧
    ∃ s n : Nat,
      (s : Int) = weekdayOfFirst (getFullYear tz date) (getMonth tz date) ∧ s ≤ 6 ∧
      (n : Int) = DaysInMonth (getFullYear tz date) (getMonth tz date) ∧
      MonthGrid s n
        (fun d => dayCell w.availability
          (Calendar.dateStr tz (getFullYear tz date) (getMonth tz date) d) d)
        (Calendar.renderCalendar tz date w).tbody ∧
      MonthGrid s n
        (fun d => dayCell w.availability
          (WebsiteCalendar.dateStr tz (getFullYear tz date) (getMonth tz date) d) d)
        (WebsiteCalendar.renderCalendar tz date w).tbody := by
  have hs := startDayOfWeek_range tz date
  have hn := totalDays_range tz date
  have hv : validTime date = true := by
    simp only [datesValid, Bool.and_eq_true] at hvalid
    exact hvalid.1.1.1
  refine ⟨hv, (startDayOfWeek tz date).toNat, (totalDays tz date).toNat, ?_, ?_, ?_,
    renderWith_grid Calendar.dateStr tz date w,
    renderWith_grid WebsiteCalendar.dateStr tz date w⟩
  · rw [← startDayOfWeek_eq tz date hy]; omega
  · omega
  · rw [← totalDays_eq tz date hy]; omega

/-- The layout at September 2025, whose first day is a Monday and which has 30
days, seen two hours east of Greenwich. -/
theorem renderCalendar_month_grid_witness :
    ∃ s n : Nat, s = 1 ∧ n = 30 ∧
      MonthGrid s n
        (fun d => dayCell Sample.page.availability
          (Calendar.dateStr (-120) (getFullYear (-120) Sample.september2025)
            (getMonth (-120) Sample.september2025) d) d)
        (Calendar.renderCalendar (-120) Sample.september2025 Sample.page).tbody := by
  obtain ⟨_, s, n, h1, _, h3, h4, _⟩ :=
    renderCalendar_month_grid (-120) Sample.september2025 Sample.page (by decide) (by decide)
  have e1 : weekdayOfFirst (getFullYear (-120) Sample.september2025)
      (getMonth (-120) Sample.september2025) = 1 := by decide
  have e2 : DaysInMonth (getFullYear (-120) Sample.september2025)
      (getMonth (-120) Sample.september2025) = 30 := by decide
  exact ⟨s, n, by omega, by omega, h4⟩

/-- C2 on the code: for the date 29 February of year 0, a valid date in a leap
year whose February has 29 days and starts on a Tuesday, `renderCalendar` of both
scripts passes the year 0 to `new Date(year, month, ..)`, which reads it as 1900:
`firstDay` and `lastDay` are those of February 1900, four leading blank cells
and 28 days are rendered, and the table body is not the month grid of two blank
cells and 29 days that the month of the date has. -/
theorem renderCalendar_february_year_zero :
    datesValid 0 Sample.leapDayYearZero = true ∧
    getFullYear 0 Sample.leapDayYearZero = 0 ∧ getMonth 0 Sample.leapDayYearZero = 1 ∧
    getDate 0 Sample.leapDayYearZero = 29 ∧
    weekdayOfFirst 0 1 = 2 ∧ DaysInMonth 0 1 = 29 ∧
    startDayOfWeek 0 Sample.leapDayYearZero = 4 ∧ totalDays 0 Sample.leapDayYearZero = 28 ∧
    ¬ MonthGrid 2 29
        (fun d => dayCell Sample.page.availability (Calendar.dateStr 0 0 1 d) d)
        (Calendar.renderCalendar 0 Sample.leapDayYearZero Sample.page).tbody ∧
    ¬ MonthGrid 2 29
        (fun d => dayCell Sample.page.availability (WebsiteCalendar.dateStr 0 0 1 d) d)
        (WebsiteCalendar.renderCalendar 0 Sample.leapDayYearZero Sample.page).tbody := by
  have ht : (totalDays 0 Sample.leapDayYearZero).toNat = 28 := by decide
  refine ⟨by decide, by decide, by decide, by decide, by decide, by decide, by decide,
    by decide, ?_, ?_⟩
  · intro h
    have h1 := (renderWith_grid Calendar.dateStr 0 Sample.leapDayYearZero Sample.page).2.2.2.2.2.1
    have h2 := h.2.2.2.2.2.1
    rw [ht] at h1
    have h3 : (Calendar.renderCalendar 0 Sample.leapDayYearZero Sample.page).tbody
        = (renderWith Calendar.dateStr 0 Sample.leapDayYearZero Sample.page).tbody := rfl
    rw [h3, h1] at h2
    omega
  · intro h
    have h1 := (renderWith_grid WebsiteCalendar.dateStr 0 Sample.leapDayYearZero
      Sample.page).2.2.2.2.2.1
    have h2 := h.2.2.2.2.2.1
    rw [ht] at h1
    have h3 : (WebsiteCalendar.renderCalendar 0 Sample.leapDayYearZero Sample.page).tbody
        = (renderWith WebsiteCalendar.dateStr 0 Sample.leapDayYearZero Sample.page).tbody := rfl
    rw [h3, h1] at h2
    omega

/-- C3 on the code: in `renderCalendar` of `src/website/js/calendar.js`, for a
viewer two hours east of Greenwich the key computed for 1 September 2025 is
"2025-08-31", so the cell of day 1 (first row, Monday column) is `unavailable`
and has no click listener although "2025-09-01" is in the availability list; the
key of `src/js/calendar.js` for the same day is "2025-09-01". -/
theorem WebsiteCalendar.renderCalendar_september_first :
    WebsiteCalendar.dateStr (-120) 2025 8 1 = "2025-08-31" ∧
    "2025-09-01" ∈ Sample.page.availability ∧
    getFullYear (-120) Sample.september2025 = 2025 ∧
    getMonth (-120) Sample.september2025 = 8 ∧
    cellAt (WebsiteCalendar.renderCalendar (-120) Sample.september2025 Sample.page).tbody 0 1
      = some { textContent := some 1, classList := ["unavailable"], onClick := none } ∧
    Calendar.dateStr (-120) 2025 8 1 = "2025-09-01" := by
  refine ⟨by decide, by decide, by decide, by decide, ?_, by decide⟩
  decide

/-! ## Selection: the cells that carry `selected` -/

namespace Dom

theorem removeClass_not_selected (c : Cell) :
    (c.removeClass "selected").isSelected = false := by
  simp [Cell.removeClass, Cell.isSelected, classRemove, List.mem_filter]

theorem addClass_selected (c : Cell) : (c.addClass "selected").isSelected = true := by
  unfold Cell.addClass Cell.isSelected classAdd
  by_cases h : "selected" ∈ c.classList <;> simp [h]

theorem modifyNth_none {α : Type} (f : α → α) (j : Nat) (l : List α) (h : l[j]? = none) :
    modifyNth f j l = l := by
  induction l generalizing j with
  | nil => cases j <;> rfl
  | cons a l ih =>
    cases j with
    | zero => simp at h
    | succ j =>
      simp only [List.getElem?_cons_succ] at h
      simp [modifyNth, ih j h]

theorem getElem?_modifyNth {α : Type} (f : α → α) (j k : Nat) (l : List α) :
    (modifyNth f j l)[k]? = if k = j then l[k]?.map f else l[k]? := by
  induction l generalizing j k with
  | nil => cases j <;> simp [modifyNth]
  | cons a l ih =>
    cases j with
    | zero =>
      cases k with
      | zero => simp [modifyNth]
      | succ k => simp [modifyNth]
    | succ j =>
      cases k with
      | zero => simp [modifyNth]
      | succ k => simp [modifyNth, ih j k]

theorem length_modifyNth {α : Type} (f : α → α) (j : Nat) (l : List α) :
    (modifyNth f j l).length = l.length := by
  induction l generalizing j with
  | nil => cases j <;> rfl
  | cons a l ih => cases j <;> simp [modifyNth, ih]

theorem countP_modifyNth (p : Cell → Bool) (f : Cell → Cell) (j : Nat) (l : List Cell)
    (a : Cell) (h : l[j]? = some a) :
    (modifyNth f j l).countP p + (if p a then 1 else 0)
      = l.countP p + (if p (f a) then 1 else 0) := by
  induction l generalizing j with
  | nil => simp at h
  | cons b l ih =>
    cases j with
    | zero =>
      simp only [List.getElem?_cons_zero, Option.some.injEq] at h
      subst h
      simp only [modifyNth, List.countP_cons]
      omega
    | succ j =>
      simp only [List.getElem?_cons_succ] at h
      have := ih j h
      simp only [modifyNth, List.countP_cons]
      omega

theorem cellAt_modifyCell (f : Cell → Cell) (i j i1 j1 : Nat) (tb : List (List Cell)) :
    cellAt (modifyCell f i j tb) i1 j1
      = if i1 = i ∧ j1 = j then (cellAt tb i1 j1).map f else cellAt tb i1 j1 := by
  unfold cellAt modifyCell
  rw [getElem?_modifyNth]
  by_cases hi : i1 = i
  · subst hi
    cases h : tb[i1]? with
    | none => simp
    | some row =>
      simp only [if_true, Option.map_some', true_and]
      rw [getElem?_modifyNth]
  · simp [hi]

theorem selectedCount_modifyCell (f : Cell → Cell) (i j : Nat) (tb : List (List Cell))
    (a : Cell) (h : cellAt tb i j = some a) :
    selectedCount (modifyCell f i j tb) + (if a.isSelected then 1 else 0)
      = selectedCount tb + (if (f a).isSelected then 1 else 0) := by
  induction tb generalizing i with
  | nil => simp [cellAt] at h
  | cons row rows ih =>
    cases i with
    | zero =>
      simp only [cellAt, List.getElem?_cons_zero] at h
      have := countP_modifyNth Cell.isSelected f j row a h
      simp only [selectedCount, modifyCell, modifyNth, List.map_cons, List.sum_cons]
      omega
    | succ i =>
      have h1 : cellAt rows i j = some a := by
        simpa [cellAt] using h
      have := ih i h1
      simp only [selectedCount, modifyCell, modifyNth, List.map_cons, List.sum_cons] at this ⊢
      omega

theorem modifyCell_none (f : Cell → Cell) (i j : Nat) (tb : List (List Cell))
    (h : cellAt tb i j = none) : modifyCell f i j tb = tb := by
  induction tb generalizing i with
  | nil => cases i <;> rfl
  | cons row rows ih =>
    cases i with
    | zero =>
      simp only [cellAt, List.getElem?_cons_zero] at h
      simp [modifyCell, modifyNth, modifyNth_none f j row h]
    | succ i =>
      have h1 : cellAt rows i j = none := by simpa [cellAt] using h
      have := ih i h1
      simp only [modifyCell, modifyNth] at this ⊢
      rw [this]

theorem firstSelectedInRow_none (row : List Cell) (h : firstSelectedInRow row = none) :
    row.countP Cell.isSelected = 0 := by
  induction row with
  | nil => rfl
  | cons c cs ih =>
    unfold firstSelectedInRow at h
    by_cases hc : c.isSelected = true
    · simp [hc] at h
    · simp only [hc, Bool.false_eq_true, if_false, Option.map_eq_none'] at h
      simp [List.countP_cons, hc, ih h]

theorem firstSelectedInRow_some (row : List Cell) (j : Nat)
    (h : firstSelectedInRow row = some j) :
    ∃ a, row[j]? = some a ∧ a.isSelected = true := by
  induction row generalizing j with
  | nil => simp [firstSelectedInRow] at h
  | cons c cs ih =>
    unfold firstSelectedInRow at h
    by_cases hc : c.isSelected = true
    · simp only [hc, if_true, Option.some.injEq] at h
      subst h
      exact ⟨c, by simp, hc⟩
    · simp only [hc, Bool.false_eq_true, if_false, Option.map_eq_some'] at h
      obtain ⟨k, hk, rfl⟩ := h
      obtain ⟨a, ha, hs⟩ := ih k hk
      exact ⟨a, by simpa using ha, hs⟩

theorem querySelectorSelected_none (tb : List (List Cell))
    (h : querySelectorSelected tb = none) : selectedCount tb = 0 := by
  induction tb with
  | nil => rfl
  | cons row rows ih =>
    unfold querySelectorSelected at h
    cases hr : firstSelectedInRow row with
    | some j => simp [hr] at h
    | none =>
      simp only [hr, Option.map_eq_none'] at h
      have := ih h
      simp only [selectedCount, List.map_cons, List.sum_cons] at this ⊢
      rw [firstSelectedInRow_none row hr, this]

theorem querySelectorSelected_some (tb : List (List Cell)) (i j : Nat)
    (h : querySelectorSelected tb = some (i, j)) :
    ∃ a, cellAt tb i j = some a ∧ a.isSelected = true := by
  induction tb generalizing i with
  | nil => simp [querySelectorSelected] at h
  | cons row rows ih =>
    unfold querySelectorSelected at h
    cases hr : firstSelectedInRow row with
    | some k =>
      simp only [hr, Option.some.injEq, Prod.mk.injEq] at h
      obtain ⟨rfl, rfl⟩ := h
      obtain ⟨a, ha, hs⟩ := firstSelectedInRow_some row k hr
      exact ⟨a, by simpa [cellAt] using ha, hs⟩
    | none =>
      simp only [hr, Option.map_eq_some', Prod.mk.injEq] at h
      obtain ⟨⟨i1, j1⟩, hq, rfl, rfl⟩ := h
      obtain ⟨a, ha, hs⟩ := ih i1 hq
      exact ⟨a, by simpa [cellAt] using ha, hs⟩

/-- Taking `selected` off the first selected cell lowers the count by one. -/
theorem selectedCount_deselect (tb : List (List Cell)) :
    selectedCount (deselect tb) = selectedCount tb - 1 := by
  unfold deselect
  cases hq : querySelectorSelected tb with
  | none => simp [querySelectorSelected_none tb hq]
  | some p =>
    obtain ⟨i, j⟩ := p
    obtain ⟨a, ha, hs⟩ := querySelectorSelected_some tb i j hq
    have := selectedCount_modifyCell (Cell.removeClass "selected") i j tb a ha
    simp only [hs, if_true, removeClass_not_selected, Bool.false_eq_true, if_false] at this
    simp only []
    omega

theorem cellAt_deselect_isSome (tb : List (List Cell)) (i j : Nat) :
    (cellAt (deselect tb) i j).isSome = (cellAt tb i j).isSome := by
  unfold deselect
  cases hq : querySelectorSelected tb with
  | none => rfl
  | some p =>
    simp only [cellAt_modifyCell]
    split <;> simp


theorem selectedCount_eq_zero (tb : List (List Cell)) (h : selectedCount tb = 0)
    (i j : Nat) (a : Cell) (ha : cellAt tb i j = some a) : a.isSelected = false := by
  have := selectedCount_modifyCell (Cell.removeClass "selected") i j tb a ha
  rw [removeClass_not_selected] at this
  cases hs : a.isSelected with
  | false => rfl
  | true => rw [hs] at this; simp at this; omega

/-- What `selectDate` does to the table body when at most one cell was selected:
afterwards exactly one cell is selected, the clicked one. -/
theorem selectedCount_select (tb : List (List Cell)) (i j : Nat) (a : Cell)
    (ha : cellAt tb i j = some a) (hinv : selectedCount tb ≤ 1) :
    selectedCount (modifyCell (Cell.addClass "selected") i j (deselect tb)) = 1 ∧
    ∃ c, cellAt (modifyCell (Cell.addClass "selected") i j (deselect tb)) i j = some c ∧
      c.isSelected = true := by
  have h0 : selectedCount (deselect tb) = 0 := by
    rw [selectedCount_deselect]; omega
  have hsome : (cellAt (deselect tb) i j).isSome = true := by
    rw [cellAt_deselect_isSome, ha]; rfl
  obtain ⟨b, hb⟩ := Option.isSome_iff_exists.1 hsome
  have hbs := selectedCount_eq_zero _ h0 i j b hb
  have := selectedCount_modifyCell (Cell.addClass "selected") i j _ b hb
  rw [hbs, addClass_selected, h0] at this
  refine ⟨by simpa using this, Cell.addClass "selected" b, ?_, addClass_selected b⟩
  rw [cellAt_modifyCell, hb]; simp

end Dom

namespace CalendarWidget
open JS Dom

theorem noCellSelected_of_count (tb : List (List Cell)) (h : selectedCount tb = 0) :
    NoCellSelected tb := by
  intro i j c hc hmem
  have := selectedCount_eq_zero tb h i j c hc
  simp [Cell.isSelected, hmem] at this

theorem selectedCount_buildBody (s n : Nat) (f : Nat → Cell) (hs : s < 7)
    (hf : ∀ d, (f d).isSelected = false) : selectedCount (buildBody s n f) = 0 := by
  obtain ⟨hflat, _, _⟩ := buildBody_spec s n f hs
  unfold selectedCount
  rw [← List.countP_flatten, hflat]
  have hb : blankCell.isSelected = false := by decide
  simp only [List.countP_append, List.countP_replicate, hb, List.countP_map]
  have : List.countP (Cell.isSelected ∘ f) (List.range' 1 n) = 0 := by
    rw [List.countP_eq_zero]
    intro d _
    simp [hf d]
  simp [this]

theorem dayCell_not_selected (availability : List String) (key : String) (d : Nat) :
    (dayCell availability key d).isSelected = false := by
  unfold dayCell; split <;> simp [Cell.isSelected]

theorem selectedCount_renderWith (dateStrOf : Int → Int → Int → Int → String)
    (tz date : Int) (w : Widget) : selectedCount (renderWith dateStrOf tz date w).tbody = 0 := by
  have hs := startDayOfWeek_range tz date
  exact selectedCount_buildBody _ _ _ (by omega) (fun d => dayCell_not_selected _ _ d)

theorem selectedCount_clickCell (i j : Nat) (w : Widget) (h : selectedCount w.tbody ≤ 1) :
    selectedCount (clickCell i j w).tbody ≤ 1 := by
  unfold clickCell
  cases hc : cellAt w.tbody i j with
  | none => exact h
  | some c =>
    cases ho : c.onClick with
    | none => simp only [ho]; exact h
    | some dateStr =>
      simp only [ho, selectDate]
      exact le_of_eq (selectedCount_select w.tbody i j c hc h).1

theorem selectedCount_resetForm (w : Widget) :
    selectedCount (resetForm w).tbody = selectedCount w.tbody - 1 :=
  selectedCount_deselect w.tbody

theorem not_visible_classRemove (l : List String) : "visible" ∉ classRemove l "visible" := by
  simp [classRemove, List.mem_filter]

theorem selectedCount_chooseService (index : Nat) (w : Widget) :
    (chooseService index w).tbody = w.tbody := by
  unfold chooseService; split <;> rfl

end CalendarWidget

namespace Calendar
open JS Dom CalendarWidget

theorem step_inv (tz : Int) (w : Widget) (e : Event) (h : selectedCount w.tbody ≤ 1) :
    selectedCount (step tz w e).tbody ≤ 1 := by
  cases e with
  | fetched dates =>
    cases dates <;>
      exact le_of_eq_of_le (selectedCount_renderWith _ _ _ _) (Nat.zero_le _)
  | click i j => exact selectedCount_clickCell i j w h
  | prev => exact le_of_eq_of_le (selectedCount_renderWith _ _ _ _) (Nat.zero_le _)
  | next => exact le_of_eq_of_le (selectedCount_renderWith _ _ _ _) (Nat.zero_le _)
  | submit now =>
    simp only [step, submitClick]
    by_cases hv : invalid w = true
    · simp only [hv, if_true]; exact h
    · simp only [hv, Bool.false_eq_true, if_false]
      cases hl : load w.bookings with
      | notArray => exact h
      | array bookings =>
        simp only []
        show selectedCount (deselect w.tbody) ≤ 1
        rw [selectedCount_deselect]; omega
  | typeName text => exact h
  | typeEmail text => exact h
  | chooseService index =>
    simp only [step, selectedCount_chooseService]; exact h

theorem reachable_inv (tz : Int) (w : Widget) (h : Reachable tz w) :
    selectedCount w.tbody ≤ 1 := by
  induction h with
  | loaded => simp [loaded, selectedCount]
  | step w e _ ih => exact step_inv tz w e ih

end Calendar

namespace WebsiteCalendar
open JS Dom CalendarWidget

theorem website_step_inv (tz : Int) (w : Widget) (e : Event) (h : selectedCount w.tbody ≤ 1) :
    selectedCount (step tz w e).tbody ≤ 1 := by
  cases e with
  | fetched dates =>
    cases dates <;>
      exact le_of_eq_of_le (selectedCount_renderWith _ _ _ _) (Nat.zero_le _)
  | click i j => exact selectedCount_clickCell i j w h
  | prev => exact le_of_eq_of_le (selectedCount_renderWith _ _ _ _) (Nat.zero_le _)
  | next => exact le_of_eq_of_le (selectedCount_renderWith _ _ _ _) (Nat.zero_le _)
  | submit now =>
    simp only [step, submitClick]
    by_cases hv : invalid w = true
    · simp only [hv, if_true]; exact h
    · simp only [hv, Bool.false_eq_true, if_false]
      show selectedCount (deselect w.tbody) ≤ 1
      rw [selectedCount_deselect]; omega
  | typeName text => exact h
  | typeEmail text => exact h
  | chooseService index =>
    simp only [step, selectedCount_chooseService]; exact h

theorem website_reachable_inv (tz : Int) (w : Widget) (h : Reachable tz w) :
    selectedCount w.tbody ≤ 1 := by
  induction h with
  | loaded => simp [loaded, selectedCount]
  | step w e _ ih => exact website_step_inv tz w e ih

end WebsiteCalendar

/-! ## The cart -/

namespace Shop
open JS

/-- The result of one `addToCart` on a stored list. -/
theorem addToCart_ok {Price : Type} (x : String) (s : State Price) (lines : List CartLine)
    (hcart : s.cart = Stored.list lines) :
    addToCart x s = .ok
      { s with
        cart := Stored.list (addLine x lines)
        cartCount := (addLine x lines).foldl (fun sum item => numberAdd sum item.quantity) 0
        alerts := s.alerts ++ ["Artikel wurde dem Warenkorb hinzugefügt."] } := by
  simp only [addToCart, hcart, load, updateCartCount]

/-- Up to 2^53 in magnitude the sum of two Numbers that hold integers is the sum
of the integers. -/
theorem numberAdd_exact (a b : Int) (h0 : -9007199254740992 ≤ a + b)
    (h1 : a + b ≤ 9007199254740992) : numberAdd a b = a + b := by
  unfold numberAdd
  generalize a + b = n at h0 h1
  by_cases hlt : n.natAbs < 9007199254740992
  · unfold toDouble
    simp only [hlt, if_true]
  · have : n = 9007199254740992 ∨ n = -9007199254740992 := by omega
    rcases this with h | h <;> subst h <;> decide

theorem sum_quantity_nonneg (lines : List CartLine) (hq : ∀ l ∈ lines, 0 ≤ l.quantity) :
    0 ≤ (lines.map (fun l => l.quantity)).sum := by
  induction lines with
  | nil => simp
  | cons l ls ih =>
    have h1 := hq l (by simp)
    have h2 := ih (fun m hm => hq m (by simp [hm]))
    simp only [List.map_cons, List.sum_cons]
    omega

theorem quantity_le_sum (lines : List CartLine) (hq : ∀ l ∈ lines, 0 ≤ l.quantity)
    (l : CartLine) (hl : l ∈ lines) : l.quantity ≤ (lines.map (fun l => l.quantity)).sum := by
  induction lines with
  | nil => simp at hl
  | cons m ms ih =>
    have h1 := hq m (by simp)
    have h2 := sum_quantity_nonneg ms (fun k hk => hq k (by simp [hk]))
    simp only [List.map_cons, List.sum_cons]
    rcases List.mem_cons.1 hl with h | h
    · subst h; omega
    · have := ih (fun k hk => hq k (by simp [hk])) h
      omega

/-- The displayed count of a cart of non-negative quantities whose sum is at most
2^53 is that sum. -/
theorem foldl_quantity (lines : List CartLine) (a : Int) (ha : 0 ≤ a)
    (hq : ∀ l ∈ lines, 0 ≤ l.quantity)
    (hb : a + (lines.map (fun l => l.quantity)).sum ≤ 9007199254740992) :
    lines.foldl (fun sum item => numberAdd sum item.quantity) a
      = a + (lines.map (fun l => l.quantity)).sum := by
  induction lines generalizing a with
  | nil => simp
  | cons l ls ih =>
    have h1 := hq l (by simp)
    have h2 := sum_quantity_nonneg ls (fun k hk => hq k (by simp [hk]))
    simp only [List.map_cons, List.sum_cons] at hb
    simp only [List.foldl_cons, List.map_cons, List.sum_cons]
    rw [numberAdd_exact a l.quantity (by omega) (by omega),
      ih (a + l.quantity) (by omega) (fun k hk => hq k (by simp [hk])) (by omega)]
    omega

theorem find_none (x : String) (lines : List CartLine)
    (h : x ∉ lines.map (fun l => l.id)) :
    lines.find? (fun item => item.id = x) = none := by
  rw [List.find?_eq_none]
  intro l hl hx
  exact h (List.mem_map.2 ⟨l, hl, by simpa using hx⟩)

theorem find_some (x : String) (lines : List CartLine)
    (h : x ∈ lines.map (fun l => l.id)) :
    ∃ l, lines.find? (fun item => item.id = x) = some l := by
  cases hf : lines.find? (fun item => item.id = x) with
  | some l => exact ⟨l, rfl⟩
  | none =>
    rw [List.find?_eq_none] at hf
    obtain ⟨l, hl, hx⟩ := List.mem_map.1 h
    exact absurd (by simpa using hx) (hf l hl)

theorem incrementFirst_absent (x : String) (lines : List CartLine)
    (h : x ∉ lines.map (fun l => l.id)) : incrementFirst x lines = lines := by
  induction lines with
  | nil => rfl
  | cons l ls ih =>
    simp only [List.map_cons, List.mem_cons, not_or] at h
    simp [incrementFirst, Ne.symm h.1, ih h.2]

theorem incrementFirst_nodup (x : String) (lines : List CartLine)
    (hn : (lines.map (fun l => l.id)).Nodup) :
    incrementFirst x lines
      = lines.map
        (fun l => if l.id = x then { l with quantity := numberAdd l.quantity 1 } else l) := by
  induction lines with
  | nil => rfl
  | cons l ls ih =>
    simp only [List.map_cons, List.nodup_cons] at hn
    by_cases hx : l.id = x
    · have hrest : ∀ m ∈ ls, ¬ m.id = x := by
        intro m hm hmx
        exact hn.1 (List.mem_map.2 ⟨m, hm, by rw [hmx, hx]⟩)
      have : ls.map
          (fun l => if l.id = x then { l with quantity := numberAdd l.quantity 1 } else l)
          = ls := by
        conv_rhs => rw [← List.map_id ls]
        apply List.map_congr_left
        intro m hm
        simp [hrest m hm]
      simp [incrementFirst, hx, this]
    · simp [incrementFirst, hx, ih hn.2]

/-- With quantities that stay within 2^53 the increment is exact. -/
theorem incrementFirst_exact (x : String) (lines : List CartLine)
    (hn : (lines.map (fun l => l.id)).Nodup) (hq : ∀ l ∈ lines, 0 ≤ l.quantity)
    (hb : (lines.map (fun l => l.quantity)).sum + 1 ≤ 9007199254740992) :
    incrementFirst x lines
      = lines.map (fun l => if l.id = x then { l with quantity := l.quantity + 1 } else l) := by
  rw [incrementFirst_nodup x lines hn]
  apply List.map_congr_left
  intro l hl
  have h1 := hq l hl
  have h2 := quantity_le_sum lines hq l hl
  by_cases hx : l.id = x
  · simp only [hx, if_true]
    rw [numberAdd_exact l.quantity 1 (by omega) (by omega)]
  · simp only [hx, if_false]

theorem map_id_bump (x : String) (k : Int) (lines : List CartLine) :
    (lines.map (fun l => if l.id = x then { l with quantity := l.quantity + k } else l)).map
      (fun l => l.id) = lines.map (fun l => l.id) := by
  rw [List.map_map]
  apply List.map_congr_left
  intro l _
  simp only [Function.comp]
  split <;> rfl

theorem sum_bump (x : String) (k : Int) (lines : List CartLine)
    (hn : (lines.map (fun l => l.id)).Nodup) (hx : x ∈ lines.map (fun l => l.id)) :
    ((lines.map (fun l => if l.id = x then { l with quantity := l.quantity + k } else l)).map
      (fun l => l.quantity)).sum = (lines.map (fun l => l.quantity)).sum + k := by
  induction lines with
  | nil => simp at hx
  | cons l ls ih =>
    simp only [List.map_cons, List.nodup_cons] at hn
    by_cases hl : l.id = x
    · have hrest : ∀ m ∈ ls, ¬ m.id = x := by
        intro m hm hmx
        exact hn.1 (List.mem_map.2 ⟨m, hm, by rw [hmx, hl]⟩)
      have : ls.map (fun l => if l.id = x then { l with quantity := l.quantity + k } else l)
          = ls := by
        conv_rhs => rw [← List.map_id ls]
        apply List.map_congr_left
        intro m hm
        simp [hrest m hm]
      simp only [List.map_cons, hl, if_true, this, List.sum_cons]
      omega
    · have hx1 : x ∈ ls.map (fun l => l.id) := by
        simp only [List.map_cons, List.mem_cons] at hx
        rcases hx with h | h
        · exact absurd h.symm hl
        · exact h
      have := ih hn.2 hx1
      simp only [List.map_cons, hl, if_false, List.sum_cons, this]
      omega

theorem addLine_absent (x : String) (lines : List CartLine)
    (h : x ∉ lines.map (fun l => l.id)) :
    addLine x lines = lines ++ [{ id := x, quantity := 1 }] := by
  simp only [addLine, find_none x lines h]

theorem addLine_present (x : String) (lines : List CartLine)
    (hn : (lines.map (fun l => l.id)).Nodup) (hq : ∀ l ∈ lines, 0 ≤ l.quantity)
    (hb : (lines.map (fun l => l.quantity)).sum + 1 ≤ 9007199254740992)
    (h : x ∈ lines.map (fun l => l.id)) :
    addLine x lines
      = lines.map (fun l => if l.id = x then { l with quantity := l.quantity + 1 } else l) := by
  obtain ⟨l, hl⟩ := find_some x lines h
  simp only [addLine, hl, incrementFirst_exact x lines hn hq hb]

theorem bump_nonneg (x : String) (lines : List CartLine) (hq : ∀ l ∈ lines, 0 ≤ l.quantity) :
    ∀ l ∈ lines.map
        (fun l => if l.id = x then { l with quantity := l.quantity + 1 } else l),
      0 ≤ l.quantity := by
  intro l hl
  obtain ⟨m, hm, rfl⟩ := List.mem_map.1 hl
  have := hq m hm
  by_cases hx : m.id = x
  · simp only [hx, if_true]; omega
  · simp only [hx, if_false]; exact this

/-- Two calls of `addLine` on a cart with pairwise distinct ids and non-negative
quantities whose sum stays within 2^53. -/
theorem addLine_twice (x : String) (lines : List CartLine)
    (hn : (lines.map (fun l => l.id)).Nodup) (hq : ∀ l ∈ lines, 0 ≤ l.quantity)
    (hb : (lines.map (fun l => l.quantity)).sum + 2 ≤ 9007199254740992) :
    addLine x (addLine x lines)
      = lines.map (fun l => if l.id = x then { l with quantity := l.quantity + 2 } else l)
        ++ (if x ∈ lines.map (fun l => l.id) then [] else [{ id := x, quantity := 2 }]) ∧
    ((addLine x lines).map (fun l => l.quantity)).sum
      = (lines.map (fun l => l.quantity)).sum + 1 ∧
    ((addLine x (addLine x lines)).map (fun l => l.quantity)).sum
      = (lines.map (fun l => l.quantity)).sum + 2 ∧
    (∀ l ∈ addLine x lines, 0 ≤ l.quantity) ∧
    (∀ l ∈ addLine x (addLine x lines), 0 ≤ l.quantity) := by
  by_cases hx : x ∈ lines.map (fun l => l.id)
  · have h1 := addLine_present x lines hn hq (by omega) hx
    have hs1 := sum_bump x 1 lines hn hx
    have hn1 : ((addLine x lines).map (fun l => l.id)).Nodup := by
      rw [h1, map_id_bump]; exact hn
    have hx1 : x ∈ (addLine x lines).map (fun l => l.id) := by
      rw [h1, map_id_bump]; exact hx
    have hq1 : ∀ l ∈ addLine x lines, 0 ≤ l.quantity := by
      rw [h1]; exact bump_nonneg x lines hq
    have hb1 : ((addLine x lines).map (fun l => l.quantity)).sum + 1 ≤ 9007199254740992 := by
      rw [h1, hs1]; omega
    have h2 := addLine_present x (addLine x lines) hn1 hq1 hb1 hx1
    have hs2 := sum_bump x 1 (addLine x lines) hn1 hx1
    have hq2 : ∀ l ∈ addLine x (addLine x lines), 0 ≤ l.quantity := by
      rw [h2]; exact bump_nonneg x _ hq1
    refine ⟨?_, ?_, ?_, hq1, hq2⟩
    · rw [h2, h1, List.map_map, if_pos hx, List.append_nil]
      apply List.map_congr_left
      intro l _
      simp only [Function.comp]
      by_cases hl : l.id = x
      · simp [hl]; omega
      · simp [hl]
    · rw [h1]; exact hs1
    · rw [h2, hs2, h1, hs1]; omega
  · have h1 := addLine_absent x lines hx
    have hfind : (lines ++ [({ id := x, quantity := 1 } : CartLine)]).find?
        (fun item => item.id = x) = some { id := x, quantity := 1 } := by
      rw [List.find?_append, find_none x lines hx]
      simp
    have hmap : lines.map
        (fun l => if l.id = x then { l with quantity := l.quantity + 2 } else l) = lines := by
      conv_rhs => rw [← List.map_id lines]
      apply List.map_congr_left
      intro m hm
      have : ¬ m.id = x := fun h => hx (List.mem_map.2 ⟨m, hm, h⟩)
      simp [this]
    have h11 : numberAdd 1 1 = 2 := by decide
    have hinc : incrementFirst x (lines ++ [({ id := x, quantity := 1 } : CartLine)])
        = lines ++ [{ id := x, quantity := 2 }] := by
      clear h1 hfind hmap hn hq hb
      induction lines with
      | nil => simp [incrementFirst, h11]
      | cons l ls ih =>
        simp only [List.map_cons, List.mem_cons, not_or] at hx
        simp [incrementFirst, Ne.symm hx.1, ih hx.2]
    have h2 : addLine x (addLine x lines) = lines ++ [{ id := x, quantity := 2 }] := by
      rw [h1]
      simp only [addLine, hfind, hinc]
    refine ⟨?_, ?_, ?_, ?_, ?_⟩
    · rw [h2, hmap, if_neg hx]
    · rw [h1]; simp
    · rw [h2]; simp
    · rw [h1]
      intro l hl
      rcases List.mem_append.1 hl with h | h
      · exact hq l h
      · simp at h; subst h; simp
    · rw [h2]
      intro l hl
      rcases List.mem_append.1 hl with h | h
      · exact hq l h
      · simp at h; subst h; simp

end Shop

/-! ## The booking form -/

open JS Dom CalendarWidget

/-- C4. In the submit listener of `src/js/calendar.js`: in a state with at most
one selected cell (the invariant of the widget) in which `selectedDate` is set,
the trimmed name, the trimmed email and the service are not empty, and `bookings`
is absent or holds a list of records, the listener returns normally, the store
becomes the previous list followed by the one new record (date, service, trimmed
name, trimmed email, creation time), and afterwards `selectedDate` is null, no
cell carries `selected` and the form is not visible. -/
theorem Calendar.submitClick_appends (now : Int) (w : Widget) (date : String)
    (previous : List Booking)
    (hcells : selectedCount w.tbody ≤ 1)
    (hdate : w.selectedDate = some date) (hset : date ≠ "")
    (hname : trim w.bookingName ≠ "") (hemail : trim w.bookingEmail ≠ "")
    (hservice : w.serviceSelect.value ≠ "")
    (hstore : (w.bookings = Stored.absent ∧ previous = []) ∨
      w.bookings = Stored.list previous) :
    ∃ w1, Calendar.submitClick now w = .ok w1 ∧
      w1.bookings = Stored.list (previous ++
        [{ date := date, service := w.serviceSelect.value, name := trim w.bookingName,
           email := trim w.bookingEmail, createdAt := toISOString now }]) ∧
      (previous ++
        [{ date := date, service := w.serviceSelect.value, name := trim w.bookingName,
           email := trim w.bookingEmail, createdAt := toISOString now : Booking }]).length
        = previous.length + 1 ∧
      (∀ i, i < previous.length →
        (previous ++
          [{ date := date, service := w.serviceSelect.value, name := trim w.bookingName,
             email := trim w.bookingEmail, createdAt := toISOString now : Booking }])[i]?
          = previous[i]?) ∧
      w1.selectedDate = none ∧
      selectedCount w1.tbody = 0 ∧ NoCellSelected w1.tbody ∧
      ¬ FormVisible w1 := by
  have hvalid : invalid w = false := by
    simp [invalid, noDate, hdate, hset, hname, hemail, hservice]
  have hload : load w.bookings = Loaded.array previous := by
    rcases hstore with ⟨h, rfl⟩ | h <;> rw [h] <;> rfl
  have hcount : selectedCount (deselect w.tbody) = 0 := by
    rw [selectedCount_deselect]; omega
  refine ⟨_, by simp only [Calendar.submitClick, hvalid, hload, hdate]; rfl, ?_, ?_, ?_, ?_,
    ?_, ?_, ?_⟩
  · simp [resetForm]
  · simp
  · intro i hi
    rw [List.getElem?_append_left hi]
  · rfl
  · exact hcount
  · exact noCellSelected_of_count _ hcount
  · exact not_visible_classRemove _

/-- Witness of C4: the sample page after a click on 1 September 2025 and the
filling of the form; the store is absent. -/
theorem Calendar.submitClick_appends_witness :
    ∃ w1, Calendar.submitClick Sample.clickTime Sample.booked = .ok w1 ∧
      w1.bookings = Stored.list
        [{ date := "2025-09-01", service := "beratung", name := "Ada Lovelace",
           email := "ada@example.org", createdAt := "2025-08-20T10:30:00.000Z" }] := by
  obtain ⟨w1, h1, h2, _⟩ := Calendar.submitClick_appends Sample.clickTime Sample.booked
    "2025-09-01" [] (by decide) (by decide) (by decide) (by decide) (by decide) (by decide)
    (Or.inl ⟨by decide, rfl⟩)
  refine ⟨w1, h1, ?_⟩
  rw [h2]
  decide

/-- C5. In the submit listener of `src/js/calendar.js`: when the selected date,
the trimmed name, the trimmed email or the service is empty or unset, the
listener returns after the validation message and changes nothing else: the
store, the class list of the form, `selectedDate`, the table body and the form
fields are as before.  A name or an email made only of white space is empty
after trimming. -/
theorem Calendar.submitClick_rejects (now : Int) (w : Widget)
    (h : w.selectedDate = none ∨ w.selectedDate = some "" ∨ trim w.bookingName = "" ∨
      trim w.bookingEmail = "" ∨ w.serviceSelect.value = "") :
    Calendar.submitClick now w = .ok { w with alerts := w.alerts ++ [validationMessage] } ∧
    (∀ w1, Calendar.submitClick now w = .ok w1 →
      w1.bookings = w.bookings ∧ w1.bookingForm = w.bookingForm ∧
      (FormVisible w1 ↔ FormVisible w) ∧
      w1.selectedDate = w.selectedDate ∧ w1.tbody = w.tbody ∧
      w1.bookingName = w.bookingName ∧ w1.bookingEmail = w.bookingEmail ∧
      w1.serviceSelect = w.serviceSelect ∧ w1.bookingDateInput = w.bookingDateInput ∧
      w1.bookingDateDisplay = w.bookingDateDisplay ∧ w1.currentDate = w.currentDate) ∧
    (∀ text : String, (∀ c ∈ text.data, isWhiteSpace c = true) → trim text = "") := by
  have hinvalid : invalid w = true := by
    unfold invalid
    rcases h with h | h | h | h | h <;> simp [noDate, h]
  have hres : Calendar.submitClick now w
      = .ok { w with alerts := w.alerts ++ [validationMessage] } := by
    simp only [Calendar.submitClick, hinvalid, if_true]
  refine ⟨hres, ?_, ?_⟩
  · intro w1 hw1
    rw [hres] at hw1
    cases hw1
    exact ⟨rfl, rfl, Iff.rfl, rfl, rfl, rfl, rfl, rfl, rfl, rfl, rfl⟩
  · intro text htext
    unfold trim
    have : text.data.dropWhile isWhiteSpace = [] := by
      rw [List.dropWhile_eq_nil_iff]; exact htext
    rw [this]; rfl

/-- Witness of C5: the sample page after the click, with a name of blanks. -/
theorem Calendar.submitClick_rejects_witness :
    Calendar.submitClick Sample.clickTime { Sample.booked with bookingName := "   " }
      = .ok { ({ Sample.booked with bookingName := "   " } : Widget) with
          alerts := Sample.booked.alerts ++ [validationMessage] } :=
  (Calendar.submitClick_rejects Sample.clickTime { Sample.booked with bookingName := "   " }
    (Or.inr (Or.inr (Or.inl (by decide))))).1

/-! ## Navigation and the selection invariant -/

theorem CalendarWidget.navigation_grid (dateStrOf : Int → Int → Int → Int → String)
    (tz : Int) (w : Widget) :
    (selectedCount (prevClickWith dateStrOf tz w).tbody = 0 ∧
      NoCellSelected (prevClickWith dateStrOf tz w).tbody ∧
      ¬ FormVisible (prevClickWith dateStrOf tz w)) ∧
    (selectedCount (nextClickWith dateStrOf tz w).tbody = 0 ∧
      NoCellSelected (nextClickWith dateStrOf tz w).tbody ∧
      ¬ FormVisible (nextClickWith dateStrOf tz w)) := by
  have hp : selectedCount (prevClickWith dateStrOf tz w).tbody = 0 :=
    selectedCount_renderWith _ _ _ _
  have hn : selectedCount (nextClickWith dateStrOf tz w).tbody = 0 :=
    selectedCount_renderWith _ _ _ _
  exact ⟨⟨hp, noCellSelected_of_count _ hp, not_visible_classRemove _⟩,
    ⟨hn, noCellSelected_of_count _ hn, not_visible_classRemove _⟩⟩

/-- C8, as amended. In both scripts, for every state of the widget and each of
the two month buttons: when the date that the listener gives `currentDate` and
the `Date` objects that `renderCalendar` builds for it are valid dates, the
listener leaves `currentDate` a valid date, no cell of the rendered table carrying
`selected`, and the booking form not visible. -/
theorem navigation_clears_grid (tz : Int) (w : Widget) :
    (datesValid tz (setMonth tz w.currentDate (getMonth tz w.currentDate - 1)) = true →
      (validTime (Calendar.prevClick tz w).currentDate = true ∧
        selectedCount (Calendar.prevClick tz w).tbody = 0 ∧
        NoCellSelected (Calendar.prevClick tz w).tbody ∧
        ¬ FormVisible (Calendar.prevClick tz w)) ∧
      (validTime (WebsiteCalendar.prevClick tz w).currentDate = true ∧
        selectedCount (WebsiteCalendar.prevClick tz w).tbody = 0 ∧
        NoCellSelected (WebsiteCalendar.prevClick tz w).tbody ∧
        ¬ FormVisible (WebsiteCalendar.prevClick tz w))) ∧
    (datesValid tz (setMonth tz w.currentDate (getMonth tz w.currentDate + 1)) = true →
      (validTime (Calendar.nextClick tz w).currentDate = true ∧
        selectedCount (Calendar.nextClick tz w).tbody = 0 ∧
        NoCellSelected (Calendar.nextClick tz w).tbody ∧
        ¬ FormVisible (Calendar.nextClick tz w)) ∧
      (validTime (WebsiteCalendar.nextClick tz w).currentDate = true ∧
        selectedCount (WebsiteCalendar.nextClick tz w).tbody = 0 ∧
        NoCellSelected (WebsiteCalendar.nextClick tz w).tbody ∧
        ¬ FormVisible (WebsiteCalendar.nextClick tz w))) := by
  have hvalid : ∀ date, datesValid tz date = true → validTime date = true := by
    intro date h
    simp only [datesValid, Bool.and_eq_true] at h
    exact h.1.1.1
  have hcp := (navigation_grid Calendar.dateStr tz w).1
  have hcn := (navigation_grid Calendar.dateStr tz w).2
  have hwp := (navigation_grid WebsiteCalendar.dateStr tz w).1
  have hwn := (navigation_grid WebsiteCalendar.dateStr tz w).2
  exact ⟨fun h => ⟨⟨hvalid _ h, hcp⟩, ⟨hvalid _ h, hwp⟩⟩,
    fun h => ⟨⟨hvalid _ h, hcn⟩, ⟨hvalid _ h, hwn⟩⟩⟩

/-- Witness of C8: the sample page in September 2025 with 1 September selected;
the dates built for August and for October 2025 are valid. -/
theorem navigation_clears_grid_witness :
    selectedCount Sample.booked.tbody = 1 ∧ FormVisible Sample.booked ∧
    selectedCount (Calendar.prevClick (-120) Sample.booked).tbody = 0 ∧
    ¬ FormVisible (Calendar.prevClick (-120) Sample.booked) ∧
    selectedCount (Calendar.nextClick (-120) Sample.booked).tbody = 0 ∧
    ¬ FormVisible (Calendar.nextClick (-120) Sample.booked) :=
  ⟨by decide, by unfold FormVisible; decide,
    ((navigation_clears_grid (-120) Sample.booked).1 (by decide)).1.2.1,
    ((navigation_clears_grid (-120) Sample.booked).1 (by decide)).1.2.2.2,
    ((navigation_clears_grid (-120) Sample.booked).2 (by decide)).1.2.1,
    ((navigation_clears_grid (-120) Sample.booked).2 (by decide)).1.2.2.2⟩

/-- Counterexample to C8 as stated: on the sample pages, with 1 September 2025
selected and the form filled, a click on next-month (or previous-month) leaves
`selectedDate` at "2025-09-01"; a submit right afterwards passes validation, and
in `src/js/calendar.js` it stores a booking for that date. -/
theorem navigation_keeps_selectedDate :
    Sample.booked.selectedDate = some "2025-09-01" ∧
    (Calendar.nextClick (-120) Sample.booked).selectedDate = some "2025-09-01" ∧
    (Calendar.prevClick (-120) Sample.booked).selectedDate = some "2025-09-01" ∧
    invalid (Calendar.nextClick (-120) Sample.booked) = false ∧
    ((Calendar.submitClick Sample.clickTime
        (Calendar.nextClick (-120) Sample.booked)).toOption.map (fun w1 => w1.bookings))
      = some (Stored.list
        [{ date := "2025-09-01", service := "beratung", name := "Ada Lovelace",
           email := "ada@example.org", createdAt := "2025-08-20T10:30:00.000Z" }]) ∧
    (WebsiteCalendar.nextClick (-120) Sample.websiteBooked).selectedDate
      = some "2025-09-01" ∧
    (WebsiteCalendar.prevClick (-120) Sample.websiteBooked).selectedDate
      = some "2025-09-01" ∧
    (WebsiteCalendar.submitClick
        (WebsiteCalendar.nextClick (-120) Sample.websiteBooked)).alerts
      = [confirmationMessage "Ada Lovelace" "2025-09-01" "beratung"] := by
  refine ⟨by decide, by decide, by decide, by decide, by decide, by decide, by decide,
    by decide⟩

theorem Dom.selected_unique (tb : List (List Cell)) (i j i1 j1 : Nat) (a b : Cell)
    (hcount : selectedCount tb = 1) (ha : cellAt tb i j = some a)
    (has : a.isSelected = true) (hb : cellAt tb i1 j1 = some b)
    (hbs : b.isSelected = true) : i1 = i ∧ j1 = j := by
  by_contra hne
  have h1 := selectedCount_modifyCell (Cell.removeClass "selected") i j tb a ha
  rw [has, removeClass_not_selected, hcount] at h1
  have h0 : selectedCount (modifyCell (Cell.removeClass "selected") i j tb) = 0 := by
    simp at h1; omega
  have hcell : cellAt (modifyCell (Cell.removeClass "selected") i j tb) i1 j1 = some b := by
    rw [cellAt_modifyCell, if_neg hne, hb]
  have := selectedCount_eq_zero _ h0 i1 j1 b hcell
  rw [hbs] at this
  exact absurd this (by decide)

/-- C9. In both scripts "at most one cell carries `selected`" is an invariant:
no cell is selected after `renderCalendar`; every step (a click on a cell, the
previous-month and next-month buttons, a submit, accepted or rejected, an edit of
the form, the arrival of the availability data) preserves it, so it holds in
every state reached from the load of the page; and after `selectDate` on a cell
of the table exactly one cell is selected, the clicked one. -/
theorem selected_at_most_one (tz : Int) :
    (∀ date w, selectedCount (Calendar.renderCalendar tz date w).tbody = 0) ∧
    (∀ date w, selectedCount (WebsiteCalendar.renderCalendar tz date w).tbody = 0) ∧
    (∀ w e, selectedCount w.tbody ≤ 1 → selectedCount (Calendar.step tz w e).tbody ≤ 1) ∧
    (∀ w e, selectedCount w.tbody ≤ 1 →
      selectedCount (WebsiteCalendar.step tz w e).tbody ≤ 1) ∧
    (∀ w, Calendar.Reachable tz w → selectedCount w.tbody ≤ 1) ∧
    (∀ w, WebsiteCalendar.Reachable tz w → selectedCount w.tbody ≤ 1) ∧
    (∀ (w : Widget) (dateStr : String) (i j : Nat) (c : Cell),
      selectedCount w.tbody ≤ 1 → cellAt w.tbody i j = some c →
      selectedCount (selectDate dateStr i j w).tbody = 1 ∧
      (∃ c1, cellAt (selectDate dateStr i j w).tbody i j = some c1 ∧
        "selected" ∈ c1.classList) ∧
      (∀ i1 j1 c2, cellAt (selectDate dateStr i j w).tbody i1 j1 = some c2 →
        "selected" ∈ c2.classList → i1 = i ∧ j1 = j)) := by
  refine ⟨fun date w => selectedCount_renderWith _ _ _ _,
    fun date w => selectedCount_renderWith _ _ _ _,
    fun w e h => Calendar.step_inv tz w e h,
    fun w e h => WebsiteCalendar.website_step_inv tz w e h,
    fun w h => Calendar.reachable_inv tz w h,
    fun w h => WebsiteCalendar.website_reachable_inv tz w h, ?_⟩
  intro w dateStr i j c hinv hc
  obtain ⟨h1, c1, hc1, hs1⟩ := selectedCount_select w.tbody i j c hc hinv
  refine ⟨h1, ⟨c1, hc1, by simpa [Cell.isSelected] using hs1⟩, ?_⟩
  intro i1 j1 c2 hc2 hs2
  exact selected_unique _ i j i1 j1 c1 c2 h1 hc1 hs1 hc2 (by simpa [Cell.isSelected] using hs2)

/-- Witness of C9: on the sample page with 1 September 2025 selected, a click on
2 September leaves one selected cell. -/
theorem selected_at_most_one_witness :
    selectedCount Sample.booked.tbody ≤ 1 ∧
    selectedCount (Calendar.step (-120) Sample.booked (Event.click 0 2)).tbody ≤ 1 :=
  ⟨by decide, (selected_at_most_one (-120)).2.2.1 Sample.booked (Event.click 0 2)
    (by decide)⟩

/-! ## The cart and the stored values -/

/-- C6, as amended. For a stored cart that is a list of lines with pairwise
distinct ids and non-negative integer quantities whose sum is at most 2^53 - 2,
and a product id `x`: two calls of `addToCart(x)` return normally and leave the
lines as they were, in their positions, except that the line with id `x` has its
quantity raised by 2, or, when there was none, a line for `x` with quantity 2
follows them; exactly one line has id `x`; and after each call the displayed count
is the sum of the quantities of the stored cart, one more than before the call. -/
theorem Shop.addToCart_twice {Price : Type} (x : String) (s : Shop.State Price)
    (lines : List Shop.CartLine) (hcart : s.cart = Stored.list lines)
    (hn : (lines.map (fun l => l.id)).Nodup)
    (hq : ∀ l ∈ lines, 0 ≤ l.quantity)
    (hsum : (lines.map (fun l => l.quantity)).sum + 2 ≤ 9007199254740992) :
    ∃ s1 s2 lines1 lines2,
      Shop.addToCart x s = .ok s1 ∧ Shop.addToCart x s1 = .ok s2 ∧
      s1.cart = Stored.list lines1 ∧ s2.cart = Stored.list lines2 ∧
      lines2 = lines.map
          (fun l => if l.id = x then { l with quantity := l.quantity + 2 } else l)
        ++ (if x ∈ lines.map (fun l => l.id) then [] else [{ id := x, quantity := 2 }]) ∧
      (lines2.filter (fun l => l.id = x)).length = 1 ∧
      (∀ (i : Nat) (l : Shop.CartLine), lines[i]? = some l →
        lines2[i]? = some (if l.id = x then { l with quantity := l.quantity + 2 } else l)) ∧
      (x ∉ lines.map (fun l => l.id) →
        lines2[lines.length]? = some { id := x, quantity := 2 } ∧
        lines2.length = lines.length + 1) ∧
      (x ∈ lines.map (fun l => l.id) → lines2.length = lines.length) ∧
      s1.cartCount = (lines1.map (fun l => l.quantity)).sum ∧
      s1.cartCount = (lines.map (fun l => l.quantity)).sum + 1 ∧
      s2.cartCount = (lines2.map (fun l => l.quantity)).sum ∧
      s2.cartCount = (lines.map (fun l => l.quantity)).sum + 2 := by
  obtain ⟨h2, hs1, hs2, hq1, hq2⟩ := Shop.addLine_twice x lines hn hq hsum
  have e1 := Shop.addToCart_ok x s lines hcart
  have e2 := Shop.addToCart_ok x
    { s with
      cart := Stored.list (Shop.addLine x lines)
      cartCount := (Shop.addLine x lines).foldl (fun sum item => numberAdd sum item.quantity) 0
      alerts := s.alerts ++ ["Artikel wurde dem Warenkorb hinzugefügt."] }
    (Shop.addLine x lines) rfl
  have hc1 : (Shop.addLine x lines).foldl (fun sum item => numberAdd sum item.quantity) 0
      = ((Shop.addLine x lines).map (fun l => l.quantity)).sum := by
    rw [Shop.foldl_quantity _ 0 le_rfl hq1 (by rw [hs1]; omega)]; simp
  have hc2 : (Shop.addLine x (Shop.addLine x lines)).foldl
      (fun sum item => numberAdd sum item.quantity) 0
      = ((Shop.addLine x (Shop.addLine x lines)).map (fun l => l.quantity)).sum := by
    rw [Shop.foldl_quantity _ 0 le_rfl hq2 (by rw [hs2]; omega)]; simp
  refine ⟨_, _, Shop.addLine x lines, Shop.addLine x (Shop.addLine x lines), e1, e2, rfl, rfl,
    h2, ?_, ?_, ?_, ?_, hc1, hc1.trans hs1, hc2, hc2.trans hs2⟩
  · rw [h2, ← List.countP_eq_length_filter, List.countP_append, List.countP_map]
    by_cases hx : x ∈ lines.map (fun l => l.id)
    · rw [if_pos hx]
      have hc : List.count x (lines.map (fun l => l.id)) = 1 :=
        List.count_eq_one_of_mem hn hx
      rw [List.count, List.countP_map] at hc
      have : List.countP ((fun l : Shop.CartLine => decide (l.id = x)) ∘
          fun l => if l.id = x then { l with quantity := l.quantity + 2 } else l) lines
          = List.countP ((fun a => a == x) ∘ fun l : Shop.CartLine => l.id) lines := by
        apply List.countP_congr
        intro l _
        simp only [Function.comp]
        by_cases hl : l.id = x <;> simp [hl]
      rw [this, hc]; simp
    · rw [if_neg hx]
      have : List.countP ((fun l : Shop.CartLine => decide (l.id = x)) ∘
          fun l => if l.id = x then { l with quantity := l.quantity + 2 } else l) lines = 0 := by
        rw [List.countP_eq_zero]
        intro l hl
        have hne : ¬ l.id = x := fun h => hx (List.mem_map.2 ⟨l, hl, h⟩)
        simp [hne]
      rw [this]; simp
  · intro i l hl
    have hi : i < lines.length := by
      by_contra hge
      rw [List.getElem?_eq_none (by omega)] at hl
      exact absurd hl (by simp)
    rw [h2, List.getElem?_append_left (by simpa using hi), List.getElem?_map, hl]
    rfl
  · intro hx
    rw [h2, if_neg hx]
    constructor
    · rw [List.getElem?_append_right (by simp)]; simp
    · simp
  · intro hx
    rw [h2, if_pos hx]; simp

/-- Witness of C6: the sample shop, whose cart holds two lines, and a product
that is not yet in the cart. -/
theorem Shop.addToCart_twice_witness :
    ∃ s1 s2, Shop.addToCart "kabel-01" Sample.shop = .ok s1 ∧
      Shop.addToCart "kabel-01" s1 = .ok s2 ∧
      s2.cart = Stored.list [{ id := "maus-01", quantity := 2 },
        { id := "ssd-01", quantity := 1 }, { id := "kabel-01", quantity := 2 }] ∧
      s2.cartCount = 5 := by
  obtain ⟨s1, s2, lines1, lines2, h1, h2, _, h4, h5, _, _, _, _, _, _, _, h13⟩ :=
    Shop.addToCart_twice "kabel-01" Sample.shop
      [{ id := "maus-01", quantity := 2 }, { id := "ssd-01", quantity := 1 }] rfl
      (by decide) (by decide) (by decide)
  refine ⟨s1, s2, h1, h2, ?_, ?_⟩
  · rw [h4, h5]; decide
  · rw [h13]; decide

/-- Counterexample to C6 as stated: the stored cart holds one line, for
"kabel-01", with quantity 2^53.  The sum 2^53 + 1 is not a Number and rounds to
2^53, so after one and after two calls of `addToCart` the quantity is still 2^53,
not 2^53 + 2, and the displayed count is 2^53 after each call: it does not rise. -/
theorem Shop.addToCart_twice_large_quantity :
    Sample.shopWithLargeQuantity.cart
      = Stored.list [{ id := "kabel-01", quantity := 9007199254740992 }] ∧
    numberAdd 9007199254740992 1 = 9007199254740992 ∧
    ((Shop.addToCart "kabel-01" Sample.shopWithLargeQuantity).toOption.map
      (fun s1 => (s1.cart, s1.cartCount)))
      = some (Stored.list [{ id := "kabel-01", quantity := 9007199254740992 }],
          9007199254740992) ∧
    (((Shop.addToCart "kabel-01" Sample.shopWithLargeQuantity).toOption.bind
      (fun s1 => (Shop.addToCart "kabel-01" s1).toOption)).map
      (fun s2 => (s2.cart, s2.cartCount)))
      = some (Stored.list [{ id := "kabel-01", quantity := 9007199254740992 }],
          9007199254740992) := by
  refine ⟨by decide, by decide, by decide, by decide⟩

/-- C7 on the code: with the text of a JSON object, the text `true`, a number
other than zero or a string that is not empty under the key, the value read is
kept although it is not an array: `updateCartCount` throws at `cart.reduce`,
`addToCart` throws at `cart.find`, and the submit listener of
`src/js/calendar.js`, with all fields present, throws at `bookings.push`; nothing
is displayed or stored.  A missing item and text that is not JSON are read as
the empty list. -/
theorem stored_value_not_an_array_throws :
    Shop.updateCartCount { Sample.shop with cart := Stored.object "\x7b\x7d" }
      = .error (.typeError "cart.reduce is not a function") ∧
    Shop.updateCartCount { Sample.shop with cart := Stored.bool true }
      = .error (.typeError "cart.reduce is not a function") ∧
    Shop.updateCartCount { Sample.shop with cart := Stored.number 7 }
      = .error (.typeError "cart.reduce is not a function") ∧
    Shop.updateCartCount { Sample.shop with cart := Stored.string "cart" }
      = .error (.typeError "cart.reduce is not a function") ∧
    Shop.addToCart "kabel-01" { Sample.shop with cart := Stored.object "\x7b\x7d" }
      = .error (.typeError "cart.find is not a function") ∧
    Shop.addToCart "kabel-01" { Sample.shop with cart := Stored.bool true }
      = .error (.typeError "cart.find is not a function") ∧
    CalendarWidget.invalid { Sample.booked with bookings := Stored.bool true } = false ∧
    Calendar.submitClick Sample.clickTime { Sample.booked with bookings := Stored.bool true }
      = .error (.typeError "bookings.push is not a function") ∧
    Calendar.submitClick Sample.clickTime
        { Sample.booked with bookings := Stored.object "\x7b\x7d" }
      = .error (.typeError "bookings.push is not a function") ∧
    ((Shop.updateCartCount { Sample.shop with cart := Stored.absent }).toOption.map
      (fun s => s.cartCount)) = some 0 ∧
    ((Shop.updateCartCount { Sample.shop with cart := Stored.notJson "[1," }).toOption.map
      (fun s => s.cartCount)) = some 0 ∧
    ((Shop.addToCart "kabel-01" { Sample.shop with cart := Stored.notJson "[1," }).toOption.map
      (fun s => s.cart)) = some (Stored.list [{ id := "kabel-01", quantity := 1 }]) := by
  refine ⟨rfl, rfl, rfl, rfl, rfl, rfl, by decide, ?_, ?_, by decide, by decide, by decide⟩
  · have h : CalendarWidget.invalid { Sample.booked with bookings := Stored.bool true } = false := by
      decide
    simp only [Calendar.submitClick, h]
    rfl
  · have h : CalendarWidget.invalid
        { Sample.booked with bookings := Stored.object "\x7b\x7d" } = false := by
      decide
    simp only [Calendar.submitClick, h]
    rfl

/-! ## The product cards -/

theorem Shop.products_foldl_changeCategory {Price : Type} (toFixed2 : Price → String)
    (cs : List String) (s : Shop.State Price) :
    (cs.foldl (fun st c => Shop.changeCategory toFixed2 c st) s).products = s.products := by
  induction cs generalizing s with
  | nil => rfl
  | cons c cs ih => simp only [List.foldl_cons]; rw [ih]; rfl

theorem Shop.sum_filter_length {Price : Type} (products : List (Shop.Product Price)) :
    ((products.map (fun p => p.category)).dedup.map
      (fun c => (products.filter (fun p => p.category = c)).length)).sum
      = products.length := by
  have h := List.sum_map_count_dedup_eq_length (products.map (fun p => p.category))
  rw [List.length_map] at h
  rw [← h]
  congr 1
  apply List.map_congr_left
  intro c _
  rw [List.count, List.countP_map, List.countP_eq_length_filter]
  congr 1

/-- C10, as amended. In `renderProducts`: for every product list and every
selected category `c`, the cards are, in catalog order and one per product, the
products whose category is `c` when `c` is not empty, and all products when `c`
is the empty filter; rendering does not change the product list, so after any
sequence of changes of the filter the empty filter shows every product once; and,
when no product has the empty string as its category, the card counts over the
distinct categories sum to the number of products. -/
theorem Shop.renderProducts_filter {Price : Type} (toFixed2 : Price → String)
    (s : Shop.State Price) (c : String) :
    (c ≠ "" → (Shop.changeCategory toFixed2 c s).productList
      = (s.products.filter (fun p => p.category = c)).map (Shop.cardOf toFixed2)) ∧
    (Shop.changeCategory toFixed2 "" s).productList = s.products.map (Shop.cardOf toFixed2) ∧
    ((Shop.changeCategory toFixed2 c s).productList.map (fun card => card.buttonClick)
      = (Shop.filtered s.products c).map (fun p => p.id)) ∧
    (Shop.renderProducts toFixed2 s).productList
      = (Shop.filtered s.products s.categoryValue).map (Shop.cardOf toFixed2) ∧
    (Shop.renderProducts toFixed2 s).products = s.products ∧
    (Shop.changeCategory toFixed2 c s).products = s.products ∧
    (∀ cs : List String,
      (Shop.changeCategory toFixed2 ""
        (cs.foldl (fun st c => Shop.changeCategory toFixed2 c st) s)).productList
        = s.products.map (Shop.cardOf toFixed2)) ∧
    ((∀ p ∈ s.products, p.category ≠ "") →
      ((s.products.map (fun p => p.category)).dedup.map
        (fun c => (Shop.changeCategory toFixed2 c s).productList.length)).sum
        = s.products.length) := by
  refine ⟨?_, ?_, ?_, rfl, rfl, rfl, ?_, ?_⟩
  · intro hc
    simp [Shop.changeCategory, Shop.renderProducts, Shop.filtered, hc]
  · simp [Shop.changeCategory, Shop.renderProducts, Shop.filtered]
  · simp [Shop.changeCategory, Shop.renderProducts, Shop.cardOf, List.map_map, Function.comp]
  · intro cs
    have := Shop.products_foldl_changeCategory toFixed2 cs s
    show (Shop.filtered (cs.foldl (fun st c => Shop.changeCategory toFixed2 c st) s).products
      "").map (Shop.cardOf toFixed2) = _
    rw [this]
    simp [Shop.filtered]
  · intro hne
    rw [← Shop.sum_filter_length s.products]
    congr 1
    apply List.map_congr_left
    intro c hc
    have hc1 : c ≠ "" := by
      obtain ⟨p, hp, rfl⟩ := List.mem_map.1 (List.mem_dedup.1 hc)
      exact hne p hp
    simp [Shop.changeCategory, Shop.renderProducts, Shop.filtered, hc1]

/-- Witness of C10: the sample shop, where every product has a category. -/
theorem Shop.renderProducts_filter_witness :
    ((Sample.shop.products.map (fun p => p.category)).dedup.map
      (fun c => (Shop.changeCategory Sample.centsText c Sample.shop).productList.length)).sum
      = Sample.shop.products.length :=
  (Shop.renderProducts_filter Sample.centsText Sample.shop "Zubehör").2.2.2.2.2.2.2
    (by decide)

/-- Counterexample to C10 as stated: with a product whose category is the empty
string, that category is the empty filter and shows both products, so the card
counts over the two distinct categories sum to 3 while there are 2 products. -/
theorem Shop.renderProducts_unnamed_category :
    Sample.shopWithUnnamedCategory.products.length = 2 ∧
    (Sample.shopWithUnnamedCategory.products.map (fun p => p.category)).dedup
      = ["", "Zubehör"] ∧
    (Shop.changeCategory Sample.centsText "" Sample.shopWithUnnamedCategory).productList.length
      = 2 ∧
    (Shop.changeCategory Sample.centsText "Zubehör"
      Sample.shopWithUnnamedCategory).productList.length = 1 ∧
    ((Sample.shopWithUnnamedCategory.products.map (fun p => p.category)).dedup.map
      (fun c => (Shop.changeCategory Sample.centsText c
        Sample.shopWithUnnamedCategory).productList.length)).sum = 3 := by
  refine ⟨by decide, by decide, by decide, by decide, by decide⟩

/-! ## The month buttons and the category drop-down -/

theorem JS.MakeDay_norm (y m d : Int) : MakeDay y m d = MakeDay (y + m / 12) (m % 12) d := by
  unfold MakeDay
  have e1 : m % 12 / 12 = 0 := by omega
  have e2 : m % 12 % 12 = m % 12 := by omega
  simp only [e1, e2, add_zero]

theorem JS.Day_MakeDate_within (day t : Int) : Day (MakeDate day (TimeWithinDay t)) = day := by
  unfold Day MakeDate TimeWithinDay msPerDay; omega

/-- Method `setMonth` on a date whose day of the month is at most 28: the date
lands in month `month mod 12` of year `year + floor(month / 12)`, on the same
day of the month. -/
theorem JS.setMonth_getters (tz t month : Int) (hd : getDate tz t ≤ 28) :
    getFullYear tz (setMonth tz t month) = getFullYear tz t + month / 12 ∧
    getMonth tz (setMonth tz t month) = month % 12 ∧
    getDate tz (setMonth tz t month) = getDate tz t := by
  have hr := DateFromTime_range (LocalTime tz t)
  have hm := DaysInMonth_range (YearFromTime (LocalTime tz t) + month / 12) (month % 12)
  unfold getFullYear getMonth getDate at *
  unfold setMonth
  simp only [LocalTime_UTC]
  refine civil_of_MakeDay _ _ _ _ (by omega) (by omega) hr.1 (by omega) ?_
  rw [Day_MakeDate_within, MakeDay_norm]

/-- The month buttons on a date whose day of the month is at most 28 show the
following and the preceding month. -/
theorem CalendarWidget.month_buttons_up_to_28 (tz : Int) (w : Widget)
    (hd : getDate tz w.currentDate ≤ 28) :
    (getMonth tz w.currentDate < 11 →
      getFullYear tz (Calendar.nextClick tz w).currentDate = getFullYear tz w.currentDate ∧
      getMonth tz (Calendar.nextClick tz w).currentDate = getMonth tz w.currentDate + 1) ∧
    (getMonth tz w.currentDate = 11 →
      getFullYear tz (Calendar.nextClick tz w).currentDate
        = getFullYear tz w.currentDate + 1 ∧
      getMonth tz (Calendar.nextClick tz w).currentDate = 0) ∧
    (0 < getMonth tz w.currentDate →
      getFullYear tz (Calendar.prevClick tz w).currentDate = getFullYear tz w.currentDate ∧
      getMonth tz (Calendar.prevClick tz w).currentDate = getMonth tz w.currentDate - 1) ∧
    (getMonth tz w.currentDate = 0 →
      getFullYear tz (Calendar.prevClick tz w).currentDate
        = getFullYear tz w.currentDate - 1 ∧
      getMonth tz (Calendar.prevClick tz w).currentDate = 11) := by
  have hm := MonthFromTime_range (LocalTime tz w.currentDate)
  have hm' : 0 ≤ getMonth tz w.currentDate ∧ getMonth tz w.currentDate ≤ 11 := hm
  have hn := setMonth_getters tz w.currentDate (getMonth tz w.currentDate + 1) hd
  have hp := setMonth_getters tz w.currentDate (getMonth tz w.currentDate - 1) hd
  have en : (Calendar.nextClick tz w).currentDate
      = setMonth tz w.currentDate (getMonth tz w.currentDate + 1) := rfl
  have ep : (Calendar.prevClick tz w).currentDate
      = setMonth tz w.currentDate (getMonth tz w.currentDate - 1) := rfl
  rw [en, ep]
  refine ⟨fun h => ⟨by rw [hn.1]; omega, by rw [hn.2.1]; omega⟩,
    fun h => ⟨by rw [hn.1]; omega, by rw [hn.2.1]; omega⟩,
    fun h => ⟨by rw [hp.1]; omega, by rw [hp.2.1]; omega⟩,
    fun h => ⟨by rw [hp.1]; omega, by rw [hp.2.1]; omega⟩⟩

/-- C11 on the code: when `data/products.json` loads and carries products but no
category list, the success handler sets `categories` to the empty list and does
not derive it from the products, so for every product list the drop-down holds
the option for all categories alone; for the three sample products, whose
distinct categories are "Zubehör" and "Ersatzteile", no option for either is
there.  The failure handler does derive the distinct categories of its fallback
products and gives each an option. -/
theorem Shop.fetchSucceeded_without_categories {Price : Type} (toFixed2 : Price → String)
    (cents : Nat → Price) (products : List (Shop.Product Price)) (p : Shop.Page Price) :
    (Shop.fetchSucceeded toFixed2 (some products) none p).state.products = products ∧
    (Shop.fetchSucceeded toFixed2 (some products) none p).state.categories = [] ∧
    (Shop.fetchSucceeded toFixed2 (some products) none p).categoryOptions
      = [{ value := "", textContent := "Alle Kategorien" }] ∧
    Shop.distinct (Sample.shop.products.map (fun q => q.category))
      = ["Zubehör", "Ersatzteile"] ∧
    (Shop.fetchSucceeded Sample.centsText (some Sample.shop.products) none
      Sample.shopPage).categoryOptions = [{ value := "", textContent := "Alle Kategorien" }] ∧
    (Shop.fetchFailed toFixed2 cents p).state.categories
      = Shop.distinct ((Shop.fallbackProducts cents).map (fun q => q.category)) ∧
    (Shop.fetchFailed toFixed2 cents p).categoryOptions
      = { value := "", textContent := "Alle Kategorien" }
        :: (Shop.distinct ((Shop.fallbackProducts cents).map (fun q => q.category))).map
          (fun cat => { value := cat, textContent := cat }) ∧
    Shop.distinct ((Shop.fallbackProducts cents).map (fun q => q.category))
      = ["Zubehör", "Ersatzteile", "Software & Lizenzen", "Service‑Gutscheine"] := by
  refine ⟨rfl, rfl, rfl, by decide, by decide, rfl, rfl, ?_⟩
  simp [Shop.distinct, Shop.fallbackProducts]

/-- C12 on the code: with `currentDate` at 31 January 2025, the next-month
listener of either script calls `setMonth(1)`, which gives 31 February, that is
3 March: the month shown is March 2025, not February, and a previous-month click
after it shows February, not January.  With `currentDate` at 31 March 2025 the
previous-month listener gives 3 March and shows March again. -/
theorem month_buttons_on_day_31 :
    getFullYear (-120) Sample.january31 = 2025 ∧ getMonth (-120) Sample.january31 = 0 ∧
    getDate (-120) Sample.january31 = 31 ∧
    getMonth (-120)
      (Calendar.nextClick (-120) { Sample.page with currentDate := Sample.january31 }).currentDate
      = 2 ∧
    getDate (-120)
      (Calendar.nextClick (-120) { Sample.page with currentDate := Sample.january31 }).currentDate
      = 3 ∧
    (Calendar.nextClick (-120)
      { Sample.page with currentDate := Sample.january31 }).monthYearLabel = "März 2025" ∧
    (WebsiteCalendar.nextClick (-120)
      { Sample.page with currentDate := Sample.january31 }).monthYearLabel = "März 2025" ∧
    (Calendar.prevClick (-120) (Calendar.nextClick (-120)
      { Sample.page with currentDate := Sample.january31 })).monthYearLabel
      = "Februar 2025" ∧
    getMonth (-120) Sample.march31 = 2 ∧ getDate (-120) Sample.march31 = 31 ∧
    (Calendar.prevClick (-120)
      { Sample.page with currentDate := Sample.march31 }).monthYearLabel = "März 2025" ∧
    (WebsiteCalendar.prevClick (-120)
      { Sample.page with currentDate := Sample.march31 }).monthYearLabel = "März 2025" := by
  refine ⟨by decide, by decide, by decide, by decide, by decide, by decide, by decide,
    by decide, by decide, by decide, by decide, by decide⟩
